import Mathlib

/-!
Shallow embedding, in Lean 4, of the configuration data model implemented in
`src/python/mochi/bedrock/spec.py` of the mochi-bedrock repository, together
with proofs about it.

Modelling conventions, used throughout:

* Python object identity (`id(obj)`) is modelled by an explicit numeric field
  (`pid` on pools, `xid` on xstreams, and so on).  Two Lean values that model
  the same live Python object carry the same identity number; independently
  constructed Python objects carry distinct numbers.  The classes that define
  `__eq__` as `id(self) == id(other)` (PoolSpec, XstreamSpec) are therefore
  compared through that field.
* Python exceptions are modelled by the `PyErr` type; a fallible Python
  operation becomes a Lean function into `Except PyErr _`.  A mutating list
  operation additionally returns the resulting underlying list, so that a
  raised exception leaving the list untouched is an explicit equation.
* Python `float` association weights are modelled by `Int`: the resolution
  algorithm only ever compares weights with each other and with zero, so any
  linearly ordered type with a zero faithfully captures its behaviour.
* `sorted` in Python sorts ascending and is stable.  The lists sorted by the
  code are lists of `(weight, index)` pairs whose index components are
  pairwise distinct, so the comparison order is total and antisymmetric on
  them and every correct sort returns the same list; we use Mathlib's
  `List.insertionSort` with the Python tuple order.
-/

deriving instance DecidableEq for Except

namespace Bedrock

/-- Python exception classes raised by `spec.py`, reduced to their class. -/
inductive PyErr where
  | nameError
  | valueError
  | typeError
  | keyError
  | indexError
  | attributeError
deriving Repr, DecidableEq

/-- Character class of the regular expression `[a-zA-Z0-9_]`. -/
def isIdentChar (c : Char) : Bool :=
  c.isAlpha || c.isDigit || c == '_'

/-- Model of `_validate_object_name` (spec.py:109-112): the name must match
`[a-zA-Z_][a-zA-Z0-9_]*$`. -/
def isValidName (s : String) : Bool :=
  match s.data with
  | [] => false
  | c :: rest => (c.isAlpha || c == '_') && rest.all isIdentChar

/-- Valid pool kinds (the `in_` validator of `PoolSpec.kind`, spec.py:563). -/
def poolKinds : List String :=
  ["fifo", "fifo_wait", "prio", "prio_wait", "earliest_first"]

/-- Valid pool access values (the `in_` validator of `PoolSpec.access`,
spec.py:566). -/
def poolAccessValues : List String :=
  ["private", "spsc", "mpsc", "spmc", "mpmc"]

/-- Valid scheduler types (the `in_` validator of `SchedulerSpec.type`,
spec.py:639). -/
def schedulerTypes : List String :=
  ["default", "basic", "prio", "randws", "basic_wait"]

/-- Valid checksum levels (`MercurySpec.checksum_level`, spec.py:468). -/
def checksumLevels : List String :=
  ["none", "rpc_headers", "rpc_payload"]

/-- Valid address formats (`MercurySpec.na_addr_format`, spec.py:472). -/
def naAddrFormats : List String :=
  ["unspec", "ipv4", "ipv6", "native"]

/-- Valid SSG bootstrap modes (`SSGSpec.bootstrap`, spec.py:1662). -/
def ssgBootstrapModes : List String :=
  ["init", "join", "mpi", "pmix", "init|join", "mpi|join", "pmix|join"]

/-- Model of `SpecListDecorator._find_with_name` (spec.py:134-147): collect
the elements whose `name` attribute equals `name` and return the first one,
`none` when there is no match. -/
def findByName {α : Type} (getName : α → String) (l : List α) (n : String) :
    Option α :=
  (l.filter (fun e => getName e == n)).head?

/-! ### Generic model of `SpecListDecorator` mutations

`SpecListDecorator` wraps a homogeneous Python list and checks, on mutation,
the element's class and the uniqueness of its `name`.  The dynamic typing is
modelled by an explicit class tag on a generic element record: the decorator
only ever inspects an element's class and its `name` attribute.  Element
equality (used by `list.index`) is identity-based for the wrapped spec
classes that define `__eq__` by `id`, and is modelled by the `eid` field. -/

/-- Generic element of a decorated spec list: a class tag (standing for the
Python element class), an object identity, and a `name` attribute. -/
structure Entity where
  tag : Nat
  eid : Nat
  name : String
deriving Repr, DecidableEq

/-- Model of `SpecListDecorator.append` (spec.py:240-257), returning the
exception raised (if any) together with the underlying list after the call. -/
def sldAppend (expected : Nat) (l : List Entity) (spec : Entity) :
    Except PyErr Unit × List Entity :=
  if spec.tag ≠ expected then
    (.error .typeError, l)
  else
    match findByName Entity.name l spec.name with
    | some _ => (.error .nameError, l)
    | none => (.ok (), l ++ [spec])

/-- Model of `SpecListDecorator.extend` (spec.py:319-339).  The three checks
(`type(x) != self._type` over the batch; `len(set(names)) != len(to_add)`;
per-name collision with existing members) all run before `self._list.extend`,
so any raised exception leaves the list unchanged.  Python's
`set(...)` cardinality test is modelled with `List.dedup`. -/
def sldExtend (expected : Nat) (l : List Entity) (toAdd : List Entity) :
    Except PyErr Unit × List Entity :=
  if (toAdd.filter (fun x => x.tag ≠ expected)).length ≠ 0 then
    (.error .typeError, l)
  else if ((toAdd.map Entity.name).dedup).length ≠ toAdd.length then
    (.error .valueError, l)
  else if ((toAdd.map Entity.name).dedup).any
      (fun n => (findByName Entity.name l n).isSome) then
    (.error .nameError, l)
  else
    (.ok (), l ++ toAdd)

/-- Semantics of CPython's `self._list[key] = spec` for an integer `key`:
negative indices count from the end of the list; an index out of the range
`[-len, len)` raises `IndexError` and leaves the list unchanged. -/
def pyListSet (l : List Entity) (key : Int) (spec : Entity) :
    Except PyErr Unit × List Entity :=
  if 0 ≤ key ∧ key < (l.length : Int) then
    (.ok (), l.set key.toNat spec)
  else if -(l.length : Int) ≤ key ∧ key < 0 then
    (.ok (), l.set (l.length - (-key).toNat) spec)
  else
    (.error .indexError, l)

/-- Model of `list.index` through identity equality, used by
`SpecListDecorator.index` on a found element (spec.py:259-279). -/
def sldIndexOf (l : List Entity) (e : Entity) : Nat :=
  l.findIdx (fun x => x.eid == e.eid)

/-- Model of the integer-key path of `SpecListDecorator.__setitem__`
(spec.py:176-216).  The guard `elif key < 0 or key >= len(self._list):`
merely constructs `KeyError('Invalid index')` without raising it, so control
falls through to the type check, the name-conflict check, and finally the raw
CPython item assignment, which is where an out-of-range index actually
raises (`IndexError`, not the documented `KeyError`). -/
def sldSetItem (expected : Nat) (l : List Entity) (key : Int) (spec : Entity) :
    Except PyErr Unit × List Entity :=
  if spec.tag ≠ expected then
    (.error .typeError, l)
  else
    match findByName Entity.name l spec.name with
    | some m =>
        if (sldIndexOf l m : Int) ≠ key then (.error .nameError, l)
        else pyListSet l key spec
    | none => pyListSet l key spec

/-! ### Entity specs (spec.py classes, §3 of the data model)

Each structure mirrors the attrs fields of the corresponding Python class,
plus the identity field modelling `id(obj)` for the classes wrapped in
identity-sensitive containers. -/

/-- Model of `PoolSpec` (spec.py:540-623).  `pid` models `id(self)`, used by
the hand-written `__hash__`/`__eq__`/`__ne__`. -/
structure PoolSpec where
  pid : Nat
  name : String
  kind : String
  access : String
deriving Repr, DecidableEq

/-- `PoolSpec.__eq__` (spec.py:596-599): identity equality. -/
def PoolSpec.pyEq (a b : PoolSpec) : Bool := a.pid == b.pid

/-- Model of `SchedulerSpec` (spec.py:626-758): a type string and a non-owning
list of pool references. -/
structure SchedulerSpec where
  type : String
  pools : List PoolSpec
deriving Repr, DecidableEq

/-- Model of `XstreamSpec` (spec.py:762-892).  `xid` models `id(self)`. -/
structure XstreamSpec where
  xid : Nat
  name : String
  scheduler : SchedulerSpec
  cpubind : Int
  affinity : List Int
deriving Repr, DecidableEq

/-- `XstreamSpec.__eq__` (spec.py:851-854): identity equality. -/
def XstreamSpec.pyEq (a b : XstreamSpec) : Bool := a.xid == b.xid

/-- Model of `ArgobotsSpec` (spec.py:922-1192): scalar tuning fields plus the
owned pool and xstream lists (`_pools`, `_xstreams`). -/
structure ArgobotsSpec where
  abt_mem_max_num_stacks : Int
  abt_thread_stacksize : Int
  version : String
  pools : List PoolSpec
  xstreams : List XstreamSpec
  lazy_stack_alloc : Bool
  profiling_dir : String
deriving Repr, DecidableEq

/-- Model of `MercurySpec` (spec.py:403-537): a pure record of tuning
fields. -/
structure MercurySpec where
  address : String
  listening : Bool
  ip_subnet : String
  auth_key : String
  auto_sm : Bool
  max_contexts : Int
  na_no_block : Bool
  na_no_retry : Bool
  no_bulk_eager : Bool
  no_loopback : Bool
  request_post_incr : Int
  request_post_init : Int
  stats : Bool
  version : String
  checksum_level : String
  input_eager_size : Int
  output_eager_size : Int
  na_addr_format : String
  na_max_expected_size : Int
  na_max_unexpected_size : Int
  na_request_mem_device : Bool
deriving Repr, DecidableEq

/-- Model of `MargoSpec` (spec.py:1210-1418).  `progress_pool` and `rpc_pool`
always hold a `PoolSpec` after construction: their `instance_of(PoolSpec)`
validators reject `None`, so the `is None` branches of `validate`/`to_dict`
are unreachable on constructed objects. -/
structure MargoSpec where
  mercury : MercurySpec
  argobots : ArgobotsSpec
  progress_timeout_ub_msec : Int
  enable_abt_profiling : Bool
  handle_cache_size : Int
  progress_pool : PoolSpec
  rpc_pool : PoolSpec
  version : String
deriving Repr, DecidableEq

/-- Model of `SwimSpec` (spec.py:1556-1613). -/
structure SwimSpec where
  period_length_ms : Int
  suspect_timeout_periods : Int
  subgroup_member_count : Int
  disabled : Bool
deriving Repr, DecidableEq

/-- Value of one entry of a Provider/Client `dependencies` dict: either one
locator string or a list of locator strings. -/
inductive DepValue where
  | str (s : String)
  | list (l : List String)
deriving Repr, DecidableEq

/-- Model of `AbtIOSpec` (spec.py:1421-1484).  `aid` models `id(self)`; the
opaque JSON `config` dict is modelled as a string-to-string association
list. -/
structure AbtIOSpec where
  aid : Nat
  name : String
  pool : PoolSpec
  config : List (String × String)
deriving Repr, DecidableEq

/-- Model of `MonaSpec` (spec.py:1487-1553). -/
structure MonaSpec where
  mid : Nat
  name : String
  pool : PoolSpec
  config : List (String × String)
deriving Repr, DecidableEq

/-- Model of `SSGSpec` (spec.py:1630-1719). -/
structure SSGSpec where
  sid : Nat
  name : String
  pool : PoolSpec
  credential : Int
  bootstrap : String
  group_file : String
  swim : Option SwimSpec
deriving Repr, DecidableEq

/-- Model of `ProviderSpec` (spec.py:1722-1895). -/
structure ProviderSpec where
  prid : Nat
  name : String
  type : String
  pool : PoolSpec
  provider_id : Int
  config : List (String × String)
  dependencies : List (String × DepValue)
  tags : List String
deriving Repr, DecidableEq

/-- Model of `ClientSpec` (spec.py:1898-1964): a Provider without id and
pool. -/
structure ClientSpec where
  cid : Nat
  name : String
  type : String
  config : List (String × String)
  dependencies : List (String × DepValue)
  tags : List String
deriving Repr, DecidableEq

/-- Model of `BedrockSpec` (spec.py:1967-2024). -/
structure BedrockSpec where
  bid : Nat
  pool : PoolSpec
  provider_id : Int
deriving Repr, DecidableEq

/-- Model of `ProcSpec` (spec.py:2042-2324).  The `libraries` registry dict is
modelled as a string-to-string association list. -/
structure ProcSpec where
  margo : MargoSpec
  abt_io : List AbtIOSpec
  mona : List MonaSpec
  ssg : List SSGSpec
  libraries : List (String × String)
  providers : List ProviderSpec
  clients : List ClientSpec
  bedrock : BedrockSpec
deriving Repr, DecidableEq

/-- Model of `ServiceSpec` (spec.py:2327-2472). -/
structure ServiceSpec where
  processes : List ProcSpec
deriving Repr, DecidableEq

/-! ### Python structural equality of the attrs-generated classes

`AbtIOSpec`, `MonaSpec`, `SSGSpec`, `ProviderSpec` and `ClientSpec` do not
pass `eq=False` to `attr.s` and define no `__eq__` of their own, so attrs
generates structural `__eq__` comparing the attribute tuples; a contained
`PoolSpec` is compared with `PoolSpec.__eq__`, i.e. by identity. -/

/-- attrs-generated `AbtIOSpec.__eq__`: structural over (name, pool, config),
with the pool compared by identity. -/
def AbtIOSpec.pyEq (a b : AbtIOSpec) : Bool :=
  a.name == b.name && a.pool.pyEq b.pool && a.config == b.config

/-- attrs-generated `MonaSpec.__eq__`: structural. -/
def MonaSpec.pyEq (a b : MonaSpec) : Bool :=
  a.name == b.name && a.pool.pyEq b.pool && a.config == b.config

/-- attrs-generated `SSGSpec.__eq__`: structural. -/
def SSGSpec.pyEq (a b : SSGSpec) : Bool :=
  a.name == b.name && a.pool.pyEq b.pool && a.credential == b.credential &&
    a.bootstrap == b.bootstrap && a.group_file == b.group_file &&
    a.swim == b.swim

/-- attrs-generated `ProviderSpec.__eq__`: structural. -/
def ProviderSpec.pyEq (a b : ProviderSpec) : Bool :=
  a.name == b.name && a.type == b.type && a.pool.pyEq b.pool &&
    a.provider_id == b.provider_id && a.config == b.config &&
    a.dependencies == b.dependencies && a.tags == b.tags

/-- attrs-generated `ClientSpec.__eq__`: structural. -/
def ClientSpec.pyEq (a b : ClientSpec) : Bool :=
  a.name == b.name && a.type == b.type && a.config == b.config &&
    a.dependencies == b.dependencies && a.tags == b.tags

/-! ### Document trees (`to_dict` output shapes, §6 of the data model)

Every `to_dict` emits a fixed set of keys, so each document is modelled by a
record with those keys; an owned entity appears inline as its own document
and a referenced-but-not-owned pool appears as its name string. -/

/-- Document of a pool: `{name, kind, access}` (spec.py:568-571). -/
structure PoolDict where
  name : String
  kind : String
  access : String
deriving Repr, DecidableEq

/-- Document of a scheduler: `{type, pools:[name,...]}` (spec.py:655-658). -/
structure SchedulerDict where
  type : String
  pools : List String
deriving Repr, DecidableEq

/-- Document of an xstream (spec.py:793-799). -/
structure XstreamDict where
  name : String
  scheduler : SchedulerDict
  cpubind : Int
  affinity : List Int
deriving Repr, DecidableEq

/-- Document of an Argobots instance (spec.py:1029-1037). -/
structure ArgobotsDict where
  abt_mem_max_num_stacks : Int
  abt_thread_stacksize : Int
  version : String
  pools : List PoolDict
  xstreams : List XstreamDict
  lazy_stack_alloc : Bool
  profiling_dir : String
deriving Repr, DecidableEq

/-- Document of a Margo instance (spec.py:1261-1279): the designated pools
are emitted by name. -/
structure MargoDict where
  mercury : MercurySpec
  argobots : ArgobotsDict
  progress_timeout_ub_msec : Int
  enable_abt_profiling : Bool
  handle_cache_size : Int
  progress_pool : Option String
  rpc_pool : Option String
  version : String
deriving Repr, DecidableEq

/-- Document of an ABT-IO instance (spec.py:1442-1447). -/
structure AbtIODict where
  name : String
  pool : String
  config : List (String × String)
deriving Repr, DecidableEq

/-- Document of a MoNA instance (spec.py:1508-1513). -/
structure MonaDict where
  name : String
  pool : String
  config : List (String × String)
deriving Repr, DecidableEq

/-- Document of an SSG group (spec.py:1671-1681); `swim` is present exactly
when the spec's `swim` field is not `None`. -/
structure SSGDict where
  name : String
  pool : String
  credential : Int
  bootstrap : String
  group_file : String
  swim : Option SwimSpec
deriving Repr, DecidableEq

/-- Document of a provider (spec.py:1769-1778). -/
structure ProviderDict where
  name : String
  type : String
  pool : String
  provider_id : Int
  dependencies : List (String × DepValue)
  config : List (String × String)
  tags : List String
deriving Repr, DecidableEq

/-- Document of a client (spec.py:1934-1941). -/
structure ClientDict where
  name : String
  type : String
  dependencies : List (String × DepValue)
  config : List (String × String)
  tags : List String
deriving Repr, DecidableEq

/-- Document of a Bedrock endpoint (spec.py:1984-1988). -/
structure BedrockDict where
  pool : String
  provider_id : Int
deriving Repr, DecidableEq

/-- Document of a process (spec.py:2129-2140). -/
structure ProcDict where
  margo : MargoDict
  abt_io : List AbtIODict
  ssg : List SSGDict
  mona : List MonaDict
  libraries : List (String × String)
  providers : List ProviderDict
  clients : List ClientDict
  bedrock : BedrockDict
deriving Repr, DecidableEq

/-- Document of a service (spec.py:2346-2350). -/
structure ServiceDict where
  processes : List ProcDict
deriving Repr, DecidableEq

/-! ### `to_dict` serialization -/

/-- `PoolSpec.to_dict` (spec.py:568-571). -/
def PoolSpec.to_dict (p : PoolSpec) : PoolDict :=
  ⟨p.name, p.kind, p.access⟩

/-- `SchedulerSpec.to_dict` (spec.py:655-658): referenced pools are emitted
by name. -/
def SchedulerSpec.to_dict (s : SchedulerSpec) : SchedulerDict :=
  ⟨s.type, s.pools.map PoolSpec.name⟩

/-- `XstreamSpec.to_dict` (spec.py:793-799). -/
def XstreamSpec.to_dict (x : XstreamSpec) : XstreamDict :=
  ⟨x.name, x.scheduler.to_dict, x.cpubind, x.affinity⟩

/-- `ArgobotsSpec.to_dict` (spec.py:1029-1037). -/
def ArgobotsSpec.to_dict (a : ArgobotsSpec) : ArgobotsDict :=
  ⟨a.abt_mem_max_num_stacks, a.abt_thread_stacksize, a.version,
   a.pools.map PoolSpec.to_dict, a.xstreams.map XstreamSpec.to_dict,
   a.lazy_stack_alloc, a.profiling_dir⟩

/-- `MargoSpec.to_dict` (spec.py:1261-1279); `MercurySpec.to_dict` is
`attr.asdict`, i.e. the record itself. -/
def MargoSpec.to_dict (m : MargoSpec) : MargoDict :=
  ⟨m.mercury, m.argobots.to_dict, m.progress_timeout_ub_msec,
   m.enable_abt_profiling, m.handle_cache_size,
   some m.progress_pool.name, some m.rpc_pool.name, m.version⟩

/-- `AbtIOSpec.to_dict` (spec.py:1442-1447). -/
def AbtIOSpec.to_dict (a : AbtIOSpec) : AbtIODict :=
  ⟨a.name, a.pool.name, a.config⟩

/-- `MonaSpec.to_dict` (spec.py:1508-1513). -/
def MonaSpec.to_dict (m : MonaSpec) : MonaDict :=
  ⟨m.name, m.pool.name, m.config⟩

/-- `SSGSpec.to_dict` (spec.py:1671-1681); `SwimSpec.to_dict` is
`attr.asdict`, i.e. the record itself. -/
def SSGSpec.to_dict (g : SSGSpec) : SSGDict :=
  ⟨g.name, g.pool.name, g.credential, g.bootstrap, g.group_file, g.swim⟩

/-- `ProviderSpec.to_dict` (spec.py:1769-1778). -/
def ProviderSpec.to_dict (p : ProviderSpec) : ProviderDict :=
  ⟨p.name, p.type, p.pool.name, p.provider_id, p.dependencies, p.config,
   p.tags⟩

/-- `ClientSpec.to_dict` (spec.py:1934-1941). -/
def ClientSpec.to_dict (c : ClientSpec) : ClientDict :=
  ⟨c.name, c.type, c.dependencies, c.config, c.tags⟩

/-- `BedrockSpec.to_dict` (spec.py:1984-1988). -/
def BedrockSpec.to_dict (b : BedrockSpec) : BedrockDict :=
  ⟨b.pool.name, b.provider_id⟩

/-- `ProcSpec.to_dict` (spec.py:2129-2140). -/
def ProcSpec.to_dict (p : ProcSpec) : ProcDict :=
  ⟨p.margo.to_dict, p.abt_io.map AbtIOSpec.to_dict, p.ssg.map SSGSpec.to_dict,
   p.mona.map MonaSpec.to_dict, p.libraries,
   p.providers.map ProviderSpec.to_dict, p.clients.map ClientSpec.to_dict,
   p.bedrock.to_dict⟩

/-- `ServiceSpec.to_dict` (spec.py:2346-2350). -/
def ServiceSpec.to_dict (s : ServiceSpec) : ServiceDict :=
  ⟨s.processes.map ProcSpec.to_dict⟩

/-! ### `validate()` (§4.3 whole-tree validator) -/

/-- Run a fallible check on each element in order, stopping at the first
raised exception (Python `for` loop over a validation body). -/
def validateEach {α : Type} (f : α → Except PyErr Unit) :
    List α → Except PyErr Unit
  | [] => .ok ()
  | x :: rest => do
    f x
    validateEach f rest

/-- `PoolSpec.validate` = `attr.validate` (spec.py:606-610): re-run the field
validators (name syntax, kind enum, access enum), in field order. -/
def PoolSpec.validateRun (p : PoolSpec) : Except PyErr Unit :=
  if ¬ isValidName p.name then .error .nameError
  else if ¬ poolKinds.contains p.kind then .error .valueError
  else if ¬ poolAccessValues.contains p.access then .error .valueError
  else .ok ()

/-- `SchedulerSpec.validate` = `attr.validate` (spec.py:704-708): the type
enum validator, then the pools validator (non-empty, all `PoolSpec`). -/
def SchedulerSpec.validateRun (s : SchedulerSpec) : Except PyErr Unit :=
  if ¬ schedulerTypes.contains s.type then .error .valueError
  else if s.pools.isEmpty then .error .valueError
  else .ok ()

/-- `XstreamSpec.validate` (spec.py:861-866): `attr.validate` (name syntax,
scheduler instance, cpubind int, affinity list) then
`self.scheduler.validate()`. -/
def XstreamSpec.validateRun (x : XstreamSpec) : Except PyErr Unit := do
  if ¬ isValidName x.name then .error .nameError
  else x.scheduler.validateRun

/-- One iteration of the xstream loop of `ArgobotsSpec.validate`
(spec.py:1075-1084): validate the xstream, re-check that its scheduler has a
pool, and check that each scheduler pool is a member of `self._pools` —
membership through `PoolSpec.__eq__`, i.e. object identity. -/
def argobotsCheckXstream (pools : List PoolSpec) (es : XstreamSpec) :
    Except PyErr Unit := do
  es.validateRun
  if es.scheduler.pools.isEmpty then .error .valueError
  else
    validateEach
      (fun p =>
        if ¬ pools.any (fun q => q.pyEq p) then .error .valueError
        else .ok ())
      es.scheduler.pools

/-- `ArgobotsSpec.validate` (spec.py:1068-1086): `attr.validate` (scalar
bounds and the duplicate-name checks of the `_pools`/`_xstreams` validators,
spec.py:964-1000), then the non-empty xstream check, the per-xstream checks,
and finally each pool's own validators.  Python's `len(set(names))` test is
modelled with `List.dedup`. -/
def ArgobotsSpec.validateRun (a : ArgobotsSpec) : Except PyErr Unit := do
  if a.abt_mem_max_num_stacks < 0 then .error .valueError
  else if a.abt_thread_stacksize ≤ 0 then .error .valueError
  else if ((a.pools.map PoolSpec.name).dedup).length ≠ a.pools.length then
    .error .valueError
  else if ((a.xstreams.map XstreamSpec.name).dedup).length ≠ a.xstreams.length then
    .error .valueError
  else if a.xstreams.isEmpty then .error .valueError
  else do
    validateEach (argobotsCheckXstream a.pools) a.xstreams
    validateEach PoolSpec.validateRun a.pools

/-- `MercurySpec.validate` = `attr.validate` (spec.py:500-504): all field
validators are `instance_of` except the two enum checks, which run in field
order (`checksum_level` before `na_addr_format`). -/
def MercurySpec.validateRun (m : MercurySpec) : Except PyErr Unit :=
  if ¬ checksumLevels.contains m.checksum_level then .error .valueError
  else if ¬ naAddrFormats.contains m.na_addr_format then .error .valueError
  else .ok ()

/-- `MargoSpec.validate` (spec.py:1313-1331): validate mercury and argobots,
then check that the designated progress and rpc pools are members of
`self.argobots._pools` — membership through `PoolSpec.__eq__`, i.e. object
identity, so a distinct pool object with identical fields is not a member.
The `is None` branches are unreachable (the field validators reject `None`). -/
def MargoSpec.validateRun (m : MargoSpec) : Except PyErr Unit := do
  m.mercury.validateRun
  m.argobots.validateRun
  if ¬ m.argobots.pools.any (fun q => q.pyEq m.progress_pool) then
    .error .valueError
  else if ¬ m.argobots.pools.any (fun q => q.pyEq m.rpc_pool) then
    .error .valueError
  else .ok ()

/-- `ProcSpec.validate` (spec.py:2193-2226).  After the per-instance pool
membership checks and the `libraries` key/value type checks (always
satisfied in this typed model), the provider loop evaluates
`p.type not in self._libraries`: `ProcSpec` has no attribute `_libraries`
(the field is named `libraries`), so the first iteration of the provider
loop — and, failing that, of the client loop — raises `AttributeError`
regardless of the registered types. -/
def ProcSpec.validateRun (p : ProcSpec) : Except PyErr Unit := do
  validateEach
    (fun a =>
      if ¬ p.margo.argobots.pools.any (fun q => q.pyEq a.pool) then
        .error .valueError
      else .ok ())
    p.abt_io
  validateEach
    (fun m =>
      if ¬ p.margo.argobots.pools.any (fun q => q.pyEq m.pool) then
        .error .valueError
      else .ok ())
    p.mona
  validateEach
    (fun g =>
      if ¬ p.margo.argobots.pools.any (fun q => q.pyEq g.pool) then
        .error .valueError
      else .ok ())
    p.ssg
  if ¬ p.providers.isEmpty then .error .attributeError
  else if ¬ p.clients.isEmpty then .error .attributeError
  else .ok ()

/-- Python `str.split(sep)` for a one-character separator, on the character
list: splitting never drops a piece, and an input without the separator
yields the one-element list. -/
def splitOnChar (sep : Char) : List Char → List (List Char)
  | [] => [[]]
  | c :: rest =>
    if c == sep then [] :: splitOnChar sep rest
    else
      match splitOnChar sep rest with
      | [] => [[c]]
      | w :: ws => (c :: w) :: ws

/-- Python `dep.split('@')`. -/
def pySplitAt (s : String) : List String :=
  (splitOnChar '@' s.data).map (fun cs => String.mk cs)

/-- Python `'@' in s` for a string `s` (single-character substring test). -/
def containsAtChar (s : String) : Bool :=
  s.data.contains '@'

/-- Python `str.isnumeric()` restricted to ASCII digits (the only numerics
that `int(...)` would accept anyway). -/
def isNumericStr (s : String) : Bool :=
  s ≠ "" && s.data.all Char.isDigit

/-- The rank guard `check_provider_dependency` of `ServiceSpec.validate`
(spec.py:2377-2381), with its two slips kept as written:

* the containment test reads `'@' in value` where `value` is the enclosing
  loop variable, not `dep` — for a list-valued dependency this asks whether
  the string `"@"` is an *element* of the list;
* `rank = int(dep.split('@')[1].isnumeric())` converts the *boolean* to an
  int, so whenever the guard is reached the rank compared is `int(True) = 1`,
  not the number written after `@`. -/
def checkProviderDependency (numProcs : Nat) (value : DepValue) (dep : String) :
    Except PyErr Unit :=
  let atInValue : Bool :=
    match value with
    | .str s => containsAtChar s
    | .list l => l.contains "@"
  if atInValue && isNumericStr ((pySplitAt dep).getD 1 "") then
    let rank : Int := 1
    if rank < 0 ∨ (numProcs : Int) ≤ rank then .error .valueError
    else .ok ()
  else .ok ()

/-- `ServiceSpec.validate` (spec.py:2374-2392): validate each process, then
run the rank guard over every provider dependency entry (string entries
directly, list entries element-wise). -/
def ServiceSpec.validateRun (s : ServiceSpec) : Except PyErr Unit :=
  validateEach
    (fun p => do
      p.validateRun
      validateEach
        (fun provider =>
          validateEach
            (fun kv =>
              match kv.2 with
              | .str v => checkProviderDependency s.processes.length kv.2 v
              | .list l =>
                validateEach
                  (fun dep => checkProviderDependency s.processes.length kv.2 dep)
                  l)
            provider.dependencies)
        p.providers)
    s.processes

/-! ### `from_dict` deserialization (two-phase, owner first)

Each `from_dict` is modelled with an explicit allocation counter `c`: every
Python object constructed along the way receives the next fresh identity
number, modelling that deserialization allocates objects distinct from every
previously live object. -/

/-- The `PoolSpec` constructor (field validators in field order): name syntax
(`NameError`), kind enum (`ValueError`), access enum (`ValueError`). -/
def mkPoolSpec (c : Nat) (name kind access : String) : Except PyErr PoolSpec :=
  if ¬ isValidName name then .error .nameError
  else if ¬ poolKinds.contains kind then .error .valueError
  else if ¬ poolAccessValues.contains access then .error .valueError
  else .ok ⟨c, name, kind, access⟩

/-- One `abt.pools.add(**pool_args)` step of `ArgobotsSpec.from_dict`
(spec.py:1050-1051): construct the pool, then `append` it with the
decorator's name-conflict check. -/
def poolsAddFromDict (c : Nat) (acc : List PoolSpec) (d : PoolDict) :
    Except PyErr (List PoolSpec × Nat) := do
  let p ← mkPoolSpec c d.name d.kind d.access
  match findByName PoolSpec.name acc p.name with
  | some _ => .error .nameError
  | none => .ok (acc ++ [p], c + 1)

/-- The pool loop of `ArgobotsSpec.from_dict` (spec.py:1049-1051). -/
def buildPoolsFromDicts (c : Nat) (acc : List PoolSpec) :
    List PoolDict → Except PyErr (List PoolSpec × Nat)
  | [] => .ok (acc, c)
  | d :: rest => do
    let (acc2, c2) ← poolsAddFromDict c acc d
    buildPoolsFromDicts c2 acc2 rest

/-- String-key lookup `abt_spec.pools[pool_ref]`
(`SpecListDecorator.__getitem__`, spec.py:152-174): `KeyError` when no pool
has the requested name. -/
def resolvePoolRef (pools : List PoolSpec) (n : String) :
    Except PyErr PoolSpec :=
  match findByName PoolSpec.name pools n with
  | none => .error .keyError
  | some p => .ok p

/-- The reference-resolution loop of `SchedulerSpec.from_dict`
(spec.py:675-677). -/
def resolvePoolRefs (pools : List PoolSpec) :
    List String → Except PyErr (List PoolSpec)
  | [] => .ok []
  | n :: rest => do
    let p ← resolvePoolRef pools n
    let ps ← resolvePoolRefs pools rest
    .ok (p :: ps)

/-- `SchedulerSpec.from_dict` (spec.py:660-678): resolve every referenced
pool by name against the owning Argobots, then run the constructor's
validators (type enum, non-empty pool list). -/
def SchedulerSpec.from_dict (abtPools : List PoolSpec) (d : SchedulerDict) :
    Except PyErr SchedulerSpec := do
  let ps ← resolvePoolRefs abtPools d.pools
  if ¬ schedulerTypes.contains d.type then .error .valueError
  else if ps.isEmpty then .error .valueError
  else .ok ⟨d.type, ps⟩

/-- `XstreamSpec.from_dict` (spec.py:801-821): build the scheduler against
the owning Argobots, then run the `XstreamSpec` constructor (name-syntax
validator). -/
def XstreamSpec.from_dict (c : Nat) (abtPools : List PoolSpec)
    (d : XstreamDict) : Except PyErr (XstreamSpec × Nat) := do
  let sched ← SchedulerSpec.from_dict abtPools d.scheduler
  if ¬ isValidName d.name then .error .nameError
  else .ok (⟨c, d.name, sched, d.cpubind, d.affinity⟩, c + 1)

/-- The xstream loop of `ArgobotsSpec.from_dict` (spec.py:1052-1054): each
deserialized xstream is `append`ed with the decorator's name-conflict
check. -/
def buildXstreamsFromDicts (c : Nat) (abtPools : List PoolSpec)
    (acc : List XstreamSpec) :
    List XstreamDict → Except PyErr (List XstreamSpec × Nat)
  | [] => .ok (acc, c)
  | d :: rest => do
    let (x, c2) ← XstreamSpec.from_dict c abtPools d
    match findByName XstreamSpec.name acc x.name with
    | some _ => .error .nameError
    | none => buildXstreamsFromDicts c2 abtPools (acc ++ [x]) rest

/-- `ArgobotsSpec.from_dict` (spec.py:1039-1055).  `ArgobotsSpec(**args)`
first runs the scalar validators and materializes the default `__primary__`
pool and xstream, which `del abt.xstreams[0]; del abt.pools[0]` immediately
remove (two identity numbers are consumed); the pool and xstream documents
are then deserialized in order against the partially built owner. -/
def ArgobotsSpec.from_dict (c : Nat) (d : ArgobotsDict) :
    Except PyErr (ArgobotsSpec × Nat) := do
  if d.abt_mem_max_num_stacks < 0 then .error .valueError
  else if d.abt_thread_stacksize ≤ 0 then .error .valueError
  else do
    let (pools, c2) ← buildPoolsFromDicts (c + 2) [] d.pools
    let (xstreams, c3) ← buildXstreamsFromDicts c2 pools [] d.xstreams
    .ok (⟨d.abt_mem_max_num_stacks, d.abt_thread_stacksize, d.version,
          pools, xstreams, d.lazy_stack_alloc, d.profiling_dir⟩, c3)

/-- `MercurySpec.from_dict` (spec.py:482-486): `MercurySpec(**data)`, whose
only non-`instance_of` validators are the two enum checks. -/
def MercurySpec.from_dict (d : MercurySpec) : Except PyErr MercurySpec :=
  if ¬ checksumLevels.contains d.checksum_level then .error .valueError
  else if ¬ naAddrFormats.contains d.na_addr_format then .error .valueError
  else .ok d

/-- `MargoSpec.from_dict` (spec.py:1281-1300): deserialize the owned
Argobots and Mercury, resolve the designated pools by name against the fresh
Argobots, then construct the Margo (`instance_of(PoolSpec)` rejects a `null`
pool reference with `TypeError`). -/
def MargoSpec.from_dict (c : Nat) (d : MargoDict) :
    Except PyErr (MargoSpec × Nat) := do
  let (argobots, c2) ← ArgobotsSpec.from_dict c d.argobots
  let mercury ← MercurySpec.from_dict d.mercury
  match d.rpc_pool, d.progress_pool with
  | some rn, some pn => do
    let rpc_pool ← resolvePoolRef argobots.pools rn
    let progress_pool ← resolvePoolRef argobots.pools pn
    .ok (⟨mercury, argobots, d.progress_timeout_ub_msec,
          d.enable_abt_profiling, d.handle_cache_size, progress_pool,
          rpc_pool, d.version⟩, c2)
  | _, _ => .error .typeError

/-- `AbtIOSpec.from_dict` (spec.py:1449-1465): resolve the pool by name, then
run the constructor (name-syntax validator). -/
def AbtIOSpec.from_dict (c : Nat) (abt : ArgobotsSpec) (d : AbtIODict) :
    Except PyErr (AbtIOSpec × Nat) := do
  let pool ← resolvePoolRef abt.pools d.pool
  if ¬ isValidName d.name then .error .nameError
  else .ok (⟨c, d.name, pool, d.config⟩, c + 1)

/-- `MonaSpec.from_dict` (spec.py:1515-1534). -/
def MonaSpec.from_dict (c : Nat) (abt : ArgobotsSpec) (d : MonaDict) :
    Except PyErr (MonaSpec × Nat) := do
  let pool ← resolvePoolRef abt.pools d.pool
  if ¬ isValidName d.name then .error .nameError
  else .ok (⟨c, d.name, pool, d.config⟩, c + 1)

/-- `SSGSpec.from_dict` (spec.py:1683-1700): resolve the pool, deserialize
`swim` when present, then run the constructor (name syntax, bootstrap enum;
a missing `swim` defaults to `None`, which the `_swim_from_args` converter
replaces with `SwimSpec(disabled=True)`). -/
def SSGSpec.from_dict (c : Nat) (abt : ArgobotsSpec) (d : SSGDict) :
    Except PyErr (SSGSpec × Nat) := do
  let pool ← resolvePoolRef abt.pools d.pool
  if ¬ isValidName d.name then .error .nameError
  else if ¬ ssgBootstrapModes.contains d.bootstrap then .error .valueError
  else
    let swim := match d.swim with
      | some sw => some sw
      | none => some ⟨0, -1, -1, true⟩
    .ok (⟨c, d.name, pool, d.credential, d.bootstrap, d.group_file, swim⟩,
         c + 1)

/-- `ProviderSpec.from_dict` (spec.py:1780-1795): resolve the pool, then run
the constructor (name-syntax validator; `type` is only checked to be a
string). -/
def ProviderSpec.from_dict (c : Nat) (abt : ArgobotsSpec) (d : ProviderDict) :
    Except PyErr (ProviderSpec × Nat) := do
  let pool ← resolvePoolRef abt.pools d.pool
  if ¬ isValidName d.name then .error .nameError
  else .ok (⟨c, d.name, d.type, pool, d.provider_id, d.config,
             d.dependencies, d.tags⟩, c + 1)

/-- `ClientSpec.from_dict` (spec.py:1943-1950). -/
def ClientSpec.from_dict (c : Nat) (d : ClientDict) :
    Except PyErr (ClientSpec × Nat) :=
  if ¬ isValidName d.name then .error .nameError
  else .ok (⟨c, d.name, d.type, d.config, d.dependencies, d.tags⟩, c + 1)

/-- `BedrockSpec.from_dict` (spec.py:1990-2005). -/
def BedrockSpec.from_dict (c : Nat) (abt : ArgobotsSpec) (d : BedrockDict) :
    Except PyErr (BedrockSpec × Nat) := do
  let pool ← resolvePoolRef abt.pools d.pool
  .ok (⟨c, pool, d.provider_id⟩, c + 1)

/-- Deserialize a list with an entity-level `from_dict` that threads the
allocation counter. -/
def listFromDicts {δ α : Type}
    (f : Nat → δ → Except PyErr (α × Nat)) (c : Nat) :
    List δ → Except PyErr (List α × Nat)
  | [] => .ok ([], c)
  | d :: rest => do
    let (x, c2) ← f c d
    let (xs, c3) ← listFromDicts f c2 rest
    .ok (x :: xs, c3)

/-- `ProcSpec.from_dict` (spec.py:2142-2180): deserialize the owned Margo
first, then every sibling list against `margo.argobots`, in source order
(abt_io, ssg, mona, providers, clients, bedrock). -/
def ProcSpec.from_dict (c : Nat) (d : ProcDict) :
    Except PyErr (ProcSpec × Nat) := do
  let (margo, c2) ← MargoSpec.from_dict c d.margo
  let (abt_io, c3) ←
    listFromDicts (fun c a => AbtIOSpec.from_dict c margo.argobots a) c2 d.abt_io
  let (ssg, c4) ←
    listFromDicts (fun c g => SSGSpec.from_dict c margo.argobots g) c3 d.ssg
  let (mona, c5) ←
    listFromDicts (fun c m => MonaSpec.from_dict c margo.argobots m) c4 d.mona
  let (providers, c6) ←
    listFromDicts (fun c p => ProviderSpec.from_dict c margo.argobots p) c5
      d.providers
  let (clients, c7) ← listFromDicts ClientSpec.from_dict c6 d.clients
  let (bedrock, c8) ← BedrockSpec.from_dict c7 margo.argobots d.bedrock
  .ok (⟨margo, abt_io, mona, ssg, d.libraries, providers, clients, bedrock⟩,
       c8)

/-- `ServiceSpec.from_dict` (spec.py:2352-2360).  The loop deserializes each
process document; the final statement is `return ProcSpec(processes=processes)`:
the attrs-generated `ProcSpec.__init__` has no `processes` parameter (and its
`margo` parameter is mandatory), so this constructor call raises `TypeError`
on every input that survives the loop. -/
def ServiceSpec.from_dict_run (c : Nat) (d : ServiceDict) :
    Except PyErr ServiceSpec := do
  let _ ← listFromDicts ProcSpec.from_dict c d.processes
  .error .typeError

/-! ### Search-space resolution (`from_config`, §4.5)

`ArgobotsSpec.from_config` (spec.py:1151-1192) materializes `num_pools` pools
and `num_xstreams` xstreams from one sampled configuration.  The sample is
modelled by the functions `kinds` (sampled `pools[i].kind`), `stypes`
(sampled `xstreams[j].scheduler.type`) and `w` (sampled
`xstreams[j].scheduler.pool_association_weight[i]`, as `w j i`). -/

/-- Python tuple comparison `(weight, index) <= (weight', index')`, the order
used by `sorted(pool_weights)`.  On the lists sorted by the code the index
components are pairwise distinct, so this order is total and antisymmetric
there and `sorted`'s stability is irrelevant: every correct sort returns the
same list. -/
def tupleLE : Int × Nat → Int × Nat → Prop :=
  fun a b => a.1 < b.1 ∨ (a.1 = b.1 ∧ a.2 ≤ b.2)

instance : DecidableRel tupleLE := fun a b => by
  unfold tupleLE; infer_instance

instance : IsTotal (Int × Nat) tupleLE where
  total a b := by
    unfold tupleLE
    rcases lt_trichotomy a.1 b.1 with h | h | h
    · exact Or.inl (Or.inl h)
    · rcases Nat.le_total a.2 b.2 with h2 | h2
      · exact Or.inl (Or.inr ⟨h, h2⟩)
      · exact Or.inr (Or.inr ⟨h.symm, h2⟩)
    · exact Or.inr (Or.inl h)

instance : IsTrans (Int × Nat) tupleLE where
  trans a b c hab hbc := by
    unfold tupleLE at *
    rcases hab with h1 | ⟨h1, h2⟩ <;> rcases hbc with h3 | ⟨h3, h4⟩
    · exact Or.inl (h1.trans h3)
    · exact Or.inl (h3 ▸ h1)
    · exact Or.inl (h1 ▸ h3)
    · exact Or.inr ⟨h1.trans h3, h2.trans h4⟩

instance : IsAntisymm (Int × Nat) tupleLE where
  antisymm a b hab hba := by
    unfold tupleLE at *
    rcases hab with h1 | ⟨h1, h2⟩ <;> rcases hba with h3 | ⟨h3, h4⟩
    · exact absurd (h1.trans h3) (lt_irrefl _)
    · exact absurd h1 (h3 ▸ lt_irrefl _)
    · exact absurd h3 (h1 ▸ lt_irrefl _)
    · exact Prod.ext h1 (Nat.le_antisymm h2 h4)

/-- Placeholder for the unreachable `IndexError` of a raw Python list index:
all indices produced by the resolution algorithm are in range. -/
def dummyPool : PoolSpec := ⟨0, "", "", ""⟩

/-- Placeholder xstream for the same purpose. -/
def dummyXstream : XstreamSpec := ⟨0, "", ⟨"", []⟩, -1, []⟩

/-- `PoolSpec.from_config` as called at spec.py:1167-1169: the pool is named
`pool_<i>`, its access is forced to `mpmc`, its kind is the sampled value;
the constructor validators run.  The identity number of the `i`-th pool is
`i`. -/
def PoolSpec.from_config (i : Nat) (kind : String) : Except PyErr PoolSpec :=
  mkPoolSpec i ("pool_" ++ toString i) kind "mpmc"

/-- The ascending `sorted(pool_weights)` list of `SchedulerSpec.from_config`
(spec.py:748-753): every pool index paired with its sampled weight, ordered
by the Python tuple order. -/
def poolWeightsSorted (len : Nat) (w : Nat → Int) : List (Int × Nat) :=
  List.insertionSort tupleLE ((List.range len).map (fun i => (w i, i)))

/-- The pool list selected by `SchedulerSpec.from_config` (spec.py:754-757)
once the top pair `last = pool_weights[-1]` is known: the single
highest-weighted pool when no weight is positive, otherwise every
positive-weight pool in descending weight order. -/
def schedulerChosenPools (pools : List PoolSpec) (w : Nat → Int)
    (last : Int × Nat) : List PoolSpec :=
  if last.1 ≤ 0 then [pools.getD last.2 dummyPool]
  else
    ((poolWeightsSorted pools.length w).filter
      (fun p => decide (0 < p.1))).map (fun p => pools.getD p.2 dummyPool)
      |>.reverse

/-- `SchedulerSpec.from_config` (spec.py:739-758): sort the sampled weights,
select the pools (`schedulerChosenPools`), then run the constructor's
validators (type enum, non-empty pool list).  An empty pool list makes
`pool_weights[-1]` raise `IndexError`. -/
def SchedulerSpec.from_config (stype : String) (pools : List PoolSpec)
    (w : Nat → Int) : Except PyErr SchedulerSpec :=
  match (poolWeightsSorted pools.length w).getLast? with
  | none => .error .indexError
  | some last =>
    if ¬ schedulerTypes.contains stype then .error .valueError
    else if (schedulerChosenPools pools w last).isEmpty then .error .valueError
    else .ok ⟨stype, schedulerChosenPools pools w last⟩

/-- `XstreamSpec.from_config` (spec.py:882-892): build the scheduler from the
sample, then construct the xstream (name-syntax validator; default cpubind
and affinity). -/
def XstreamSpec.from_config (xid : Nat) (name : String) (stype : String)
    (pools : List PoolSpec) (w : Nat → Int) : Except PyErr XstreamSpec := do
  let sched ← SchedulerSpec.from_config stype pools w
  if ¬ isValidName name then .error .nameError
  else .ok ⟨xid, name, sched, -1, []⟩

/-- The pool-creation loop of `ArgobotsSpec.from_config` (spec.py:1163-1170),
over a list of pool indices. -/
def buildConfigPoolsAux (kinds : Nat → String) :
    List Nat → Except PyErr (List PoolSpec)
  | [] => .ok []
  | i :: rest => do
    let p ← PoolSpec.from_config i (kinds i)
    let ps ← buildConfigPoolsAux kinds rest
    .ok (p :: ps)

/-- The pool-creation loop of `ArgobotsSpec.from_config`: indices
`0 .. num_pools - 1`. -/
def buildConfigPools (np : Nat) (kinds : Nat → String) :
    Except PyErr (List PoolSpec) :=
  buildConfigPoolsAux kinds (List.range np)

/-- The xstream-creation loop of `ArgobotsSpec.from_config`
(spec.py:1172-1182): xstream `0` is named `__primary__`, xstream `j > 0` is
named `xstream_<j>`; identity numbers continue after the pools' (`np + j`). -/
def buildConfigXstreamsAux (np : Nat) (pools : List PoolSpec)
    (stypes : Nat → String) (w : Nat → Nat → Int) :
    List Nat → Except PyErr (List XstreamSpec)
  | [] => .ok []
  | j :: rest => do
    let x ← XstreamSpec.from_config (np + j)
      (if j == 0 then "__primary__" else "xstream_" ++ toString j)
      (stypes j) pools (fun i => w j i)
    let xs ← buildConfigXstreamsAux np pools stypes w rest
    .ok (x :: xs)

/-- The xstream-creation loop over `0 .. num_xstreams - 1`. -/
def buildConfigXstreams (np nx : Nat) (pools : List PoolSpec)
    (stypes : Nat → String) (w : Nat → Nat → Int) :
    Except PyErr (List XstreamSpec) :=
  buildConfigXstreamsAux np pools stypes w (List.range nx)

/-- In-place `xstream_specs[j].scheduler.pools.append(pool)`. -/
def appendPoolToXstream (p : PoolSpec) (x : XstreamSpec) : XstreamSpec :=
  { x with scheduler := { x.scheduler with pools := x.scheduler.pools ++ [p] } }

/-- The unused-pool fixup loop of `ArgobotsSpec.from_config`
(spec.py:1183-1191): every pool not referenced by any freshly built scheduler
(`used_pools`, membership through `PoolSpec.__eq__`/`__hash__`, i.e. object
identity) is appended to the scheduler of the xstream whose sampled weight
for that pool is largest (ties broken towards the larger xstream index by the
tuple order).  `weights[-1]` on an empty list — only possible when
`num_xstreams = 0` — raises `IndexError`. -/
def assignUnusedPools (used : List PoolSpec) (nx : Nat)
    (pools : List PoolSpec) (w : Nat → Nat → Int) (acc : List XstreamSpec) :
    List Nat → Except PyErr (List XstreamSpec)
  | [] => .ok acc
  | i :: rest =>
    if used.any (fun p => p.pyEq (pools.getD i dummyPool)) then
      assignUnusedPools used nx pools w acc rest
    else
      match (poolWeightsSorted nx (fun j => w j i)).getLast? with
      | none => .error .indexError
      | some last =>
        assignUnusedPools used nx pools w
          (acc.set last.2
            (appendPoolToXstream (pools.getD i dummyPool)
              (acc.getD last.2 dummyXstream)))
          rest

/-- `ArgobotsSpec(pools=pool_specs, xstreams=xstream_specs)` as called at
spec.py:1192: every other field keeps its default; the list validators re-run
the duplicate-name checks. -/
def ArgobotsSpec.ctorChecked (pools : List PoolSpec)
    (xstreams : List XstreamSpec) : Except PyErr ArgobotsSpec :=
  if ((pools.map PoolSpec.name).dedup).length ≠ pools.length then
    .error .valueError
  else if ((xstreams.map XstreamSpec.name).dedup).length ≠ xstreams.length then
    .error .valueError
  else .ok ⟨8, 2097152, "unknown", pools, xstreams, false, "."⟩

/-- `ArgobotsSpec.from_config` (spec.py:1151-1192). -/
def ArgobotsSpec.from_config (np nx : Nat) (kinds stypes : Nat → String)
    (w : Nat → Nat → Int) : Except PyErr ArgobotsSpec := do
  let pool_specs ← buildConfigPools np kinds
  let xstream_specs ← buildConfigXstreams np nx pool_specs stypes w
  let final ← assignUnusedPools
    ((xstream_specs.map (fun x => x.scheduler.pools)).flatten)
    nx pool_specs w xstream_specs (List.range np)
  ArgobotsSpec.ctorChecked pool_specs final

/-- Heap consistency of the identity model: two pool references carrying the
same identity number denote the same Python object, hence equal field
values.  Every object graph reachable in Python satisfies this by
construction of `id`. -/
def ArgobotsSpec.heapConsistent (a : ArgobotsSpec) : Bool :=
  a.xstreams.all fun x => x.scheduler.pools.all fun p =>
    a.pools.all fun q => !(p.pyEq q) || p == q

/-! ### Concrete instances used by witnesses and counterexamples -/

/-- A Mercury record with the Python constructor defaults and address
`na+sm`. -/
def exMercury : MercurySpec :=
  ⟨"na+sm", true, "", "", false, 1, false, false, false, false, 256, 256,
   false, "unknown", "none", 4080, 4080, "unspec", 0, 0, false⟩

/-- Example pool, identity number 0. -/
def exPoolA : PoolSpec := ⟨0, "my_pool", "fifo_wait", "mpmc"⟩

/-- A pool with the same field values as `exPoolA` but a different identity:
an independently constructed `PoolSpec(name='my_pool')`. -/
def exPoolAClone : PoolSpec := ⟨99, "my_pool", "fifo_wait", "mpmc"⟩

/-- Example xstream scheduling on `exPoolA`. -/
def exXstreamA : XstreamSpec := ⟨1, "__primary__", ⟨"basic_wait", [exPoolA]⟩, -1, []⟩

/-- Example Argobots owning `exPoolA` and `exXstreamA`. -/
def exArgobotsA : ArgobotsSpec :=
  ⟨8, 2097152, "unknown", [exPoolA], [exXstreamA], false, "."⟩

/-- Example Margo whose designated pools are the member pool `exPoolA`. -/
def exMargo : MargoSpec :=
  ⟨exMercury, exArgobotsA, 100, false, 32, exPoolA, exPoolA, "unknown"⟩

/-- The same Margo with `rpc_pool` replaced by the field-identical but
distinct object `exPoolAClone`. -/
def exMargoBad : MargoSpec :=
  ⟨exMercury, exArgobotsA, 100, false, 32, exPoolA, exPoolAClone, "unknown"⟩

/-- Example provider of registered type `my_type`, with one in-range
`name@rank` dependency. -/
def exProvider : ProviderSpec :=
  ⟨20, "my_provider", "my_type", exPoolA, 1, [], [("x", .str "foo@0")], []⟩

/-- Example process: the provider's type is registered in `libraries`. -/
def exProc : ProcSpec :=
  ⟨exMargo, [], [], [], [("my_type", "libfoo.so")], [exProvider], [],
   ⟨21, exPoolA, 0⟩⟩

/-- Example two-process service; every dependency rank is in range. -/
def exService : ServiceSpec := ⟨[exProc, exProc]⟩

/-- Example Argobots for the serialization round trip: two pools with
distinct kinds and accesses, two xstreams with distinct scheduler types and
pool sets. -/
def exPoolP0 : PoolSpec := ⟨10, "p0", "fifo", "mpmc"⟩

/-- Second round-trip pool. -/
def exPoolP1 : PoolSpec := ⟨11, "p1", "prio", "spsc"⟩

/-- First round-trip xstream. -/
def exXsA : XstreamSpec := ⟨12, "__primary__", ⟨"basic_wait", [exPoolP0, exPoolP1]⟩, -1, []⟩

/-- Second round-trip xstream. -/
def exXsB : XstreamSpec := ⟨13, "es1", ⟨"prio", [exPoolP1]⟩, 2, [0, 1]⟩

/-- Round-trip example Argobots. -/
def exArgoRT : ArgobotsSpec :=
  ⟨8, 2097152, "unknown", [exPoolP0, exPoolP1], [exXsA, exXsB], false, "."⟩

/-- The sampled weight matrix refuting the "coverage seed": each xstream
prefers the *other* index's pool (`w j i > 0` iff `j ≠ i`). -/
def exSeedW : Nat → Nat → Int := fun j i => if j == i then -1 else 1

/-- The resolved Argobots for `num_pools = num_xstreams = 2` under
`exSeedW`: xstream 0 schedules only pool 1 and xstream 1 only pool 0. -/
def exSeedCounterA : ArgobotsSpec :=
  ⟨8, 2097152, "unknown",
   [⟨0, "pool_0", "fifo_wait", "mpmc"⟩, ⟨1, "pool_1", "fifo_wait", "mpmc"⟩],
   [⟨2, "__primary__", ⟨"basic_wait", [⟨1, "pool_1", "fifo_wait", "mpmc"⟩]⟩, -1, []⟩,
    ⟨3, "xstream_1", ⟨"basic_wait", [⟨0, "pool_0", "fifo_wait", "mpmc"⟩]⟩, -1, []⟩],
   false, "."⟩

/-- The resolved Argobots for `num_pools = num_xstreams = 1` (any constant
weight sign gives this result). -/
def exResolved1 : ArgobotsSpec :=
  ⟨8, 2097152, "unknown", [⟨0, "pool_0", "fifo_wait", "mpmc"⟩],
   [⟨1, "__primary__", ⟨"basic_wait", [⟨0, "pool_0", "fifo_wait", "mpmc"⟩]⟩, -1, []⟩],
   false, "."⟩

/-! ### Helper lemmas -/

theorem findByName_eq_none_iff {α : Type} (g : α → String) (l : List α)
    (n : String) : findByName g l n = none ↔ ∀ x ∈ l, g x ≠ n := by
  simp [findByName, List.head?_eq_none_iff, List.filter_eq_nil_iff]

theorem findByName_eq_some {α : Type} {g : α → String} {l : List α}
    {n : String} {y : α} (h : findByName g l n = some y) :
    y ∈ l ∧ g y = n := by
  unfold findByName at h
  have hy : y ∈ l.filter (fun e => g e == n) := by
    rcases hfl : l.filter (fun e => g e == n) with _ | ⟨a, t⟩
    · rw [hfl] at h; exact absurd h (by simp)
    · rw [hfl] at h
      simp only [List.head?_cons, Option.some.injEq] at h
      rw [← h]
      exact List.mem_cons_self a t
  have hm := List.mem_filter.mp hy
  exact ⟨hm.1, by simpa using hm.2⟩

theorem findByName_isSome_of_mem {α : Type} {g : α → String} {l : List α}
    {n : String} (h : ∃ x ∈ l, g x = n) :
    (findByName g l n).isSome = true := by
  rcases hf : findByName g l n with _ | y
  · rw [findByName_eq_none_iff] at hf
    rcases h with ⟨x, hx, hgx⟩
    exact absurd hgx (hf x hx)
  · rfl

theorem dedup_length_eq_iff {α : Type} [DecidableEq α] (l : List α) :
    l.dedup.length = l.length ↔ l.Nodup := by
  constructor
  · intro h
    have hs : List.Sublist l.dedup l := l.dedup_sublist
    have he := hs.eq_of_length h
    rw [← he]
    exact l.nodup_dedup
  · intro h
    rw [h.dedup]

theorem validateEach_ok_iff {α : Type} (f : α → Except PyErr Unit)
    (l : List α) : validateEach f l = .ok () ↔ ∀ x ∈ l, f x = .ok () := by
  induction l with
  | nil => simp [validateEach]
  | cons x rest ih =>
    constructor
    · intro h
      rcases hx : f x with e | u
      · rw [validateEach, hx] at h
        simp [Bind.bind, Except.bind] at h
      · rcases u
        intro y hy
        rcases List.mem_cons.mp hy with rfl | hy2
        · exact hx
        · rw [validateEach, hx] at h
          simp only [Bind.bind, Except.bind] at h
          exact (ih.mp h) y hy2
    · intro h
      rw [validateEach, h x (List.mem_cons_self _ _)]
      simp only [Bind.bind, Except.bind]
      exact ih.mpr (fun y hy => h y (List.mem_cons.mpr (Or.inr hy)))

/-! ### Claim theorems -/

/-- C10: for a Named Identity List `L` and an integer index `k ≥ len(L)`,
assigning an element of the correct type whose name conflicts with no member
through `L[k] = spec` raises `IndexError` from the underlying CPython list
(the `KeyError('Invalid index')` of the documented out-of-range branch is
constructed but never raised) and leaves the list unchanged, while a
negative index `-len(L) ≤ k < 0` succeeds and assigns positionally despite
that out-of-range guard. -/
theorem setitem_indexerror_and_negative_index (expected : Nat)
    (l : List Entity) (k : Int) (spec : Entity) (htag : spec.tag = expected)
    (hname : findByName Entity.name l spec.name = none) :
    ((l.length : Int) ≤ k →
      sldSetItem expected l k spec = (.error .indexError, l)) ∧
    (-(l.length : Int) ≤ k → k < 0 →
      sldSetItem expected l k spec =
        (.ok (), l.set (l.length - (-k).toNat) spec)) := by
  constructor
  · intro hk
    have h1 : ¬ (0 ≤ k ∧ k < (l.length : Int)) := by omega
    have h2 : ¬ (-(l.length : Int) ≤ k ∧ k < 0) := by omega
    simp [sldSetItem, htag, hname, pyListSet, h1, h2]
  · intro hk1 hk2
    have h1 : ¬ (0 ≤ k ∧ k < (l.length : Int)) := by omega
    have h2 : -(l.length : Int) ≤ k ∧ k < 0 := by omega
    simp [sldSetItem, htag, hname, pyListSet, h1, h2]

/-- Witness for C10 at a one-element list: index 5 raises `IndexError` and
leaves the list unchanged, index -1 assigns position 0. -/
theorem setitem_indexerror_and_negative_index_witness :
    sldSetItem 0 [⟨0, 1, "a"⟩] 5 ⟨0, 2, "b"⟩ =
      (.error .indexError, [⟨0, 1, "a"⟩]) ∧
    sldSetItem 0 [⟨0, 1, "a"⟩] (-1) ⟨0, 2, "b"⟩ =
      (.ok (), [⟨0, 2, "b"⟩]) := by
  have h := setitem_indexerror_and_negative_index 0 [⟨0, 1, "a"⟩] 5
    ⟨0, 2, "b"⟩ (by decide) (by decide)
  have h2 := setitem_indexerror_and_negative_index 0 [⟨0, 1, "a"⟩] (-1)
    ⟨0, 2, "b"⟩ (by decide) (by decide)
  exact ⟨h.1 (by decide), by simpa using h2.2 (by decide) (by decide)⟩

/-- C5: `extend` validates the whole batch before mutating — a wrong-typed
batch element raises Type-mismatch, duplicate names within the batch raise
the duplicate error, a batch name already present raises Name-conflict, and
in each case the underlying list is exactly as before; an all-valid batch is
appended whole.  `append` of an existing name likewise raises Name-conflict
and leaves the list unchanged. -/
theorem extend_atomicity_and_append_conflict (expected : Nat)
    (l toAdd : List Entity) (spec : Entity) :
    ((∃ x ∈ toAdd, x.tag ≠ expected) →
      sldExtend expected l toAdd = (.error .typeError, l)) ∧
    ((∀ x ∈ toAdd, x.tag = expected) → ¬ (toAdd.map Entity.name).Nodup →
      sldExtend expected l toAdd = (.error .valueError, l)) ∧
    ((∀ x ∈ toAdd, x.tag = expected) → (toAdd.map Entity.name).Nodup →
      (∃ x ∈ toAdd, (findByName Entity.name l x.name).isSome) →
      sldExtend expected l toAdd = (.error .nameError, l)) ∧
    ((∀ x ∈ toAdd, x.tag = expected) → (toAdd.map Entity.name).Nodup →
      (∀ x ∈ toAdd, findByName Entity.name l x.name = none) →
      sldExtend expected l toAdd = (.ok (), l ++ toAdd)) ∧
    (spec.tag = expected → (findByName Entity.name l spec.name).isSome →
      sldAppend expected l spec = (.error .nameError, l)) := by
  have hfilter : (toAdd.filter (fun x => x.tag ≠ expected)).length ≠ 0 ↔
      ∃ x ∈ toAdd, x.tag ≠ expected := by
    rw [Ne, List.length_eq_zero, List.filter_eq_nil_iff]
    simp
  have hdedup : ((toAdd.map Entity.name).dedup).length = toAdd.length ↔
      (toAdd.map Entity.name).Nodup := by
    rw [← List.length_map toAdd Entity.name]
    exact dedup_length_eq_iff _
  refine ⟨?_, ?_, ?_, ?_, ?_⟩
  · intro h
    rw [sldExtend, if_pos (hfilter.mpr h)]
  · intro htags hdup
    rw [sldExtend, if_neg, if_pos]
    · exact fun h => hdup (hdedup.mp h)
    · rw [hfilter]
      rintro ⟨x, hx, hne⟩
      exact hne (htags x hx)
  · intro htags hnodup ⟨x, hx, hsome⟩
    rw [sldExtend, if_neg, if_neg, if_pos]
    · rw [List.any_eq_true]
      exact ⟨x.name, List.mem_dedup.mpr (List.mem_map_of_mem _ hx), hsome⟩
    · rw [Ne, hdedup]
      intro h; exact h hnodup
    · rw [hfilter]
      rintro ⟨y, hy, hne⟩
      exact hne (htags y hy)
  · intro htags hnodup hnone
    rw [sldExtend, if_neg, if_neg, if_neg]
    · rw [List.any_eq_true]
      rintro ⟨n, hn, hsome⟩
      rcases List.mem_map.mp (List.mem_dedup.mp hn) with ⟨x, hx, hxn⟩
      rw [← hxn, hnone x hx] at hsome
      simp at hsome
    · rw [Ne, hdedup]
      intro h; exact h hnodup
    · rw [hfilter]
      rintro ⟨y, hy, hne⟩
      exact hne (htags y hy)
  · intro htag hsome
    rcases hf : findByName Entity.name l spec.name with _ | y
    · rw [hf] at hsome; simp at hsome
    · simp [sldAppend, htag, hf]

/-- Witness for C5: a batch with a duplicated name is rejected whole, a
batch colliding with an existing member is rejected whole, a valid batch is
appended, and `append` of an existing name raises Name-conflict — each time
the underlying list is unchanged on failure. -/
theorem extend_atomicity_and_append_conflict_witness :
    sldExtend 0 [⟨0, 1, "a"⟩] [⟨0, 2, "b"⟩, ⟨0, 3, "b"⟩] =
      (.error .valueError, [⟨0, 1, "a"⟩]) ∧
    sldExtend 0 [⟨0, 1, "a"⟩] [⟨0, 2, "b"⟩, ⟨0, 3, "a"⟩] =
      (.error .nameError, [⟨0, 1, "a"⟩]) ∧
    sldExtend 0 [⟨0, 1, "a"⟩] [⟨1, 2, "b"⟩] =
      (.error .typeError, [⟨0, 1, "a"⟩]) ∧
    sldExtend 0 [⟨0, 1, "a"⟩] [⟨0, 2, "b"⟩, ⟨0, 3, "c"⟩] =
      (.ok (), [⟨0, 1, "a"⟩, ⟨0, 2, "b"⟩, ⟨0, 3, "c"⟩]) ∧
    sldAppend 0 [⟨0, 1, "a"⟩] ⟨0, 2, "a"⟩ = (.error .nameError, [⟨0, 1, "a"⟩]) := by
  refine ⟨?_, ?_, ?_, ?_, ?_⟩
  · exact (extend_atomicity_and_append_conflict 0 [⟨0, 1, "a"⟩]
      [⟨0, 2, "b"⟩, ⟨0, 3, "b"⟩] ⟨0, 1, "a"⟩).2.1 (by decide) (by decide)
  · exact (extend_atomicity_and_append_conflict 0 [⟨0, 1, "a"⟩]
      [⟨0, 2, "b"⟩, ⟨0, 3, "a"⟩] ⟨0, 1, "a"⟩).2.2.1 (by decide) (by decide)
      ⟨⟨0, 3, "a"⟩, by decide, by decide⟩
  · exact (extend_atomicity_and_append_conflict 0 [⟨0, 1, "a"⟩]
      [⟨1, 2, "b"⟩] ⟨0, 1, "a"⟩).1 ⟨⟨1, 2, "b"⟩, by decide, by decide⟩
  · exact (extend_atomicity_and_append_conflict 0 [⟨0, 1, "a"⟩]
      [⟨0, 2, "b"⟩, ⟨0, 3, "c"⟩] ⟨0, 1, "a"⟩).2.2.2.1 (by decide) (by decide)
      (by decide)
  · exact (extend_atomicity_and_append_conflict 0 [⟨0, 1, "a"⟩]
      [] ⟨0, 2, "a"⟩).2.2.2.2 (by decide) (by decide)

theorem pool_validate_ok_facts {p : PoolSpec} (h : p.validateRun = .ok ()) :
    isValidName p.name = true ∧ poolKinds.contains p.kind = true ∧
    poolAccessValues.contains p.access = true := by
  unfold PoolSpec.validateRun at h
  by_cases h1 : isValidName p.name = true
  · by_cases h2 : poolKinds.contains p.kind = true
    · by_cases h3 : poolAccessValues.contains p.access = true
      · exact ⟨h1, h2, h3⟩
      · rw [if_neg (by simpa using h1), if_neg (by simpa using h2),
          if_pos (by simpa using h3)] at h
        exact absurd h (by simp)
    · rw [if_neg (by simpa using h1), if_pos (by simpa using h2)] at h
      exact absurd h (by simp)
  · rw [if_pos (by simpa using h1)] at h
    exact absurd h (by simp)

theorem bind_ok_decomp {e1 : Except PyErr Unit} {f : Unit → Except PyErr Unit}
    (h : e1 >>= f = .ok ()) : e1 = .ok () ∧ f () = .ok () := by
  cases e1 with
  | error e => simp [Bind.bind, Except.bind] at h
  | ok u => rcases u; exact ⟨rfl, by simpa [Bind.bind, Except.bind] using h⟩

theorem xstream_validate_ok_facts {x : XstreamSpec}
    (h : x.validateRun = .ok ()) :
    isValidName x.name = true ∧
    schedulerTypes.contains x.scheduler.type = true ∧
    x.scheduler.pools ≠ [] := by
  unfold XstreamSpec.validateRun at h
  by_cases h1 : isValidName x.name = true
  · rw [if_neg (by simpa using h1)] at h
    unfold SchedulerSpec.validateRun at h
    by_cases h2 : schedulerTypes.contains x.scheduler.type = true
    · rw [if_neg (by simpa using h2)] at h
      by_cases h3 : x.scheduler.pools.isEmpty = true
      · rw [if_pos h3] at h; exact absurd h (by simp)
      · refine ⟨h1, h2, ?_⟩
        intro hc
        exact h3 (by simp [hc])
    · rw [if_pos (by simpa using h2)] at h; exact absurd h (by simp)
  · rw [if_pos (by simpa using h1)] at h; exact absurd h (by simp)

theorem argobotsCheckXstream_ok_facts {pools : List PoolSpec}
    {es : XstreamSpec} (h : argobotsCheckXstream pools es = .ok ()) :
    isValidName es.name = true ∧
    schedulerTypes.contains es.scheduler.type = true ∧
    es.scheduler.pools ≠ [] ∧
    (∀ p ∈ es.scheduler.pools, pools.any (fun q => q.pyEq p) = true) := by
  unfold argobotsCheckXstream at h
  obtain ⟨hv, hrest⟩ := bind_ok_decomp h
  obtain ⟨h1, h2, h3⟩ := xstream_validate_ok_facts hv
  refine ⟨h1, h2, h3, ?_⟩
  rw [if_neg (by intro hc; exact h3 (by simpa using hc))] at hrest
  intro p hp
  have hone := (validateEach_ok_iff _ _).mp hrest p hp
  by_cases hm : pools.any (fun q => q.pyEq p) = true
  · exact hm
  · rw [if_pos (by simpa using hm)] at hone
    exact absurd hone (by simp)

theorem argobots_validate_ok_facts {a : ArgobotsSpec}
    (h : a.validateRun = .ok ()) :
    0 ≤ a.abt_mem_max_num_stacks ∧ 0 < a.abt_thread_stacksize ∧
    (a.pools.map PoolSpec.name).Nodup ∧
    (a.xstreams.map XstreamSpec.name).Nodup ∧
    (∀ x ∈ a.xstreams, isValidName x.name = true ∧
      schedulerTypes.contains x.scheduler.type = true ∧
      x.scheduler.pools ≠ [] ∧
      (∀ p ∈ x.scheduler.pools, a.pools.any (fun q => q.pyEq p) = true)) ∧
    (∀ p ∈ a.pools, isValidName p.name = true ∧
      poolKinds.contains p.kind = true ∧
      poolAccessValues.contains p.access = true) := by
  unfold ArgobotsSpec.validateRun at h
  by_cases h1 : a.abt_mem_max_num_stacks < 0
  case pos => rw [if_pos h1] at h; exact absurd h (by simp)
  by_cases h2 : a.abt_thread_stacksize ≤ 0
  case pos =>
    rw [if_neg h1, if_pos h2] at h; exact absurd h (by simp)
  by_cases h3 : ((a.pools.map PoolSpec.name).dedup).length = a.pools.length
  case neg =>
    rw [if_neg h1, if_neg h2, if_pos h3] at h; exact absurd h (by simp)
  by_cases h4 : ((a.xstreams.map XstreamSpec.name).dedup).length = a.xstreams.length
  case neg =>
    rw [if_neg h1, if_neg h2, if_neg (by simpa using h3), if_pos h4] at h
    exact absurd h (by simp)
  by_cases h5 : a.xstreams.isEmpty = true
  case pos =>
    rw [if_neg h1, if_neg h2, if_neg (by simpa using h3),
      if_neg (by simpa using h4), if_pos h5] at h
    exact absurd h (by simp)
  rw [if_neg h1, if_neg h2, if_neg (by simpa using h3),
    if_neg (by simpa using h4), if_neg (by simp [h5])] at h
  rcases hx : validateEach (argobotsCheckXstream a.pools) a.xstreams with e | u
  · rw [hx] at h
    exact absurd h (by simp [Bind.bind, Except.bind])
  · rcases u
    rw [hx] at h
    simp only [Bind.bind, Except.bind] at h
    have hnp : (a.pools.map PoolSpec.name).Nodup := by
      rw [← dedup_length_eq_iff]
      rw [← List.length_map a.pools PoolSpec.name] at h3
      exact h3
    have hnx : (a.xstreams.map XstreamSpec.name).Nodup := by
      rw [← dedup_length_eq_iff]
      rw [← List.length_map a.xstreams XstreamSpec.name] at h4
      exact h4
    refine ⟨by omega, by omega, hnp, hnx, ?_, ?_⟩
    · intro x hxm
      exact argobotsCheckXstream_ok_facts ((validateEach_ok_iff _ _).mp hx x hxm)
    · intro p hpm
      exact pool_validate_ok_facts ((validateEach_ok_iff _ _).mp h p hpm)

theorem buildPoolsFromDicts_ok (ds : List PoolDict) :
    ∀ (c : Nat) (acc : List PoolSpec),
    (∀ d ∈ ds, isValidName d.name = true ∧ poolKinds.contains d.kind = true ∧
      poolAccessValues.contains d.access = true) →
    (ds.map PoolDict.name).Nodup →
    (∀ d ∈ ds, ∀ x ∈ acc, x.name ≠ d.name) →
    ∃ ps, buildPoolsFromDicts c acc ds = .ok (acc ++ ps, c + ds.length) ∧
      ps.map PoolSpec.to_dict = ds ∧ (∀ p ∈ ps, c ≤ p.pid) := by
  induction ds with
  | nil =>
    intro c acc _ _ _
    exact ⟨[], by simp [buildPoolsFromDicts], rfl, by simp⟩
  | cons d rest ih =>
    intro c acc hvalid hnodup hdisj
    have hd := hvalid d (List.mem_cons_self _ _)
    have hkd : d.kind ∈ poolKinds := by simpa using hd.2.1
    have had : d.access ∈ poolAccessValues := by simpa using hd.2.2
    have hmk : mkPoolSpec c d.name d.kind d.access =
        .ok ⟨c, d.name, d.kind, d.access⟩ := by
      simp [mkPoolSpec, hd.1, hkd, had]
    have hfind : findByName PoolSpec.name acc d.name = none := by
      rw [findByName_eq_none_iff]
      exact fun x hx => hdisj d (List.mem_cons_self _ _) x hx
    have hadd : poolsAddFromDict c acc d =
        .ok (acc ++ [⟨c, d.name, d.kind, d.access⟩], c + 1) := by
      simp only [poolsAddFromDict, hmk, Bind.bind, Except.bind, hfind]
    have hnotin : d.name ∉ rest.map PoolDict.name := by
      have := hnodup
      simp only [List.map_cons, List.nodup_cons] at this
      exact this.1
    obtain ⟨ps, hps, hmap, hpid⟩ := ih (c + 1)
      (acc ++ [⟨c, d.name, d.kind, d.access⟩])
      (fun x hx => hvalid x (List.mem_cons.mpr (Or.inr hx)))
      (by
        have := hnodup
        simp only [List.map_cons, List.nodup_cons] at this
        exact this.2)
      (by
        intro e he x hx
        rcases List.mem_append.mp hx with hx2 | hx2
        · exact hdisj e (List.mem_cons.mpr (Or.inr he)) x hx2
        · have hxe : x = (⟨c, d.name, d.kind, d.access⟩ : PoolSpec) := by
            simpa using hx2
          rw [hxe]
          intro hcon
          have hde : d.name = e.name := hcon
          exact hnotin (by rw [hde]; exact List.mem_map_of_mem PoolDict.name he))
    refine ⟨⟨c, d.name, d.kind, d.access⟩ :: ps, ?_, ?_, ?_⟩
    · rw [buildPoolsFromDicts]
      simp only [hadd, Bind.bind, Except.bind]
      rw [hps]
      have hl : c + 1 + rest.length = c + (d :: rest).length := by
        simp [List.length_cons]; omega
      rw [hl, List.append_cons acc _ ps]
    · simp [hmap, PoolSpec.to_dict]
    · intro p hp
      rcases List.mem_cons.mp hp with rfl | hp2
      · exact Nat.le_refl c
      · exact Nat.le_of_lt (Nat.lt_of_lt_of_le (Nat.lt_succ_self c) (hpid p hp2))

theorem resolvePoolRefs_ok (pools : List PoolSpec) (ns : List String)
    (h : ∀ n ∈ ns, ∃ q ∈ pools, q.name = n) :
    ∃ ps, resolvePoolRefs pools ns = .ok ps ∧
      ps.map PoolSpec.name = ns := by
  induction ns with
  | nil => exact ⟨[], rfl, rfl⟩
  | cons n rest ih =>
    have hn := h n (List.mem_cons_self _ _)
    rcases hf : findByName PoolSpec.name pools n with _ | y
    · rw [findByName_eq_none_iff] at hf
      rcases hn with ⟨q, hq, hqn⟩
      exact absurd hqn (hf q hq)
    · obtain ⟨ps, hps, hmap⟩ := ih (fun m hm => h m (List.mem_cons.mpr (Or.inr hm)))
      refine ⟨y :: ps, ?_, ?_⟩
      · rw [resolvePoolRefs]
        simp only [resolvePoolRef, hf, Bind.bind, Except.bind, hps]
      · simp [hmap, (findByName_eq_some hf).2]

theorem buildXstreamsFromDicts_ok (ds : List XstreamDict) :
    ∀ (c : Nat) (abtPools : List PoolSpec) (acc : List XstreamSpec),
    (∀ d ∈ ds, isValidName d.name = true ∧
      schedulerTypes.contains d.scheduler.type = true ∧
      d.scheduler.pools ≠ []) →
    (∀ d ∈ ds, ∀ n ∈ d.scheduler.pools, ∃ q ∈ abtPools, q.name = n) →
    (ds.map XstreamDict.name).Nodup →
    (∀ d ∈ ds, ∀ x ∈ acc, x.name ≠ d.name) →
    ∃ xs c2, buildXstreamsFromDicts c abtPools acc ds = .ok (acc ++ xs, c2) ∧
      xs.map (fun x => (x.name, x.scheduler.type,
          x.scheduler.pools.map PoolSpec.name))
        = ds.map (fun d => (d.name, d.scheduler.type, d.scheduler.pools)) := by
  induction ds with
  | nil =>
    intro c abtPools acc _ _ _ _
    exact ⟨[], c, by simp [buildXstreamsFromDicts], rfl⟩
  | cons d rest ih =>
    intro c abtPools acc hvalid hres hnodup hdisj
    have hd := hvalid d (List.mem_cons_self _ _)
    obtain ⟨ps, hps, hmap⟩ := resolvePoolRefs_ok abtPools d.scheduler.pools
      (hres d (List.mem_cons_self _ _))
    have hpne : ps.isEmpty = false := by
      rcases ps with _ | ⟨p, t⟩
      · exact absurd hmap.symm (by simpa using hd.2.2)
      · rfl
    have hsched : SchedulerSpec.from_dict abtPools d.scheduler =
        .ok ⟨d.scheduler.type, ps⟩ := by
      simp only [SchedulerSpec.from_dict, hps, Bind.bind, Except.bind,
        hd.2.1, hpne]
      simp
    have hxs : XstreamSpec.from_dict c abtPools d =
        .ok (⟨c, d.name, ⟨d.scheduler.type, ps⟩, d.cpubind, d.affinity⟩,
             c + 1) := by
      simp only [XstreamSpec.from_dict, hsched, Bind.bind, Except.bind, hd.1]
      simp
    have hfind : findByName XstreamSpec.name acc d.name = none := by
      rw [findByName_eq_none_iff]
      exact fun x hx => hdisj d (List.mem_cons_self _ _) x hx
    have hnotin : d.name ∉ rest.map XstreamDict.name := by
      have := hnodup
      simp only [List.map_cons, List.nodup_cons] at this
      exact this.1
    obtain ⟨xs, c2, hxs2, hmap2⟩ := ih (c + 1) abtPools
      (acc ++ [⟨c, d.name, ⟨d.scheduler.type, ps⟩, d.cpubind, d.affinity⟩])
      (fun x hx => hvalid x (List.mem_cons.mpr (Or.inr hx)))
      (fun x hx => hres x (List.mem_cons.mpr (Or.inr hx)))
      (by
        have := hnodup
        simp only [List.map_cons, List.nodup_cons] at this
        exact this.2)
      (by
        intro e he x hx
        rcases List.mem_append.mp hx with hx2 | hx2
        · exact hdisj e (List.mem_cons.mpr (Or.inr he)) x hx2
        · have hxe : x = (⟨c, d.name, ⟨d.scheduler.type, ps⟩, d.cpubind,
              d.affinity⟩ : XstreamSpec) := by simpa using hx2
          rw [hxe]
          intro hcon
          have hde : d.name = e.name := hcon
          exact hnotin (by rw [hde]; exact List.mem_map_of_mem XstreamDict.name he))
    refine ⟨⟨c, d.name, ⟨d.scheduler.type, ps⟩, d.cpubind, d.affinity⟩ :: xs,
      c2, ?_, ?_⟩
    · rw [buildXstreamsFromDicts]
      simp only [hxs, Bind.bind, Except.bind, hfind]
      rw [hxs2, List.append_cons acc _ xs]
    · simp only [List.map_cons, hmap2, List.cons.injEq]
      exact ⟨by simp [hmap], trivial⟩

/-- C3: deserializing the serialized form of a valid Argobots succeeds and
reproduces it structurally — identical pool documents (name, kind, access,
in order), identical xstream names, scheduler types and scheduler
pool-name lists — while every pool object of the result is distinct from
every pool object of the source (fresh identities). -/
theorem argobots_from_dict_roundtrip (A : ArgobotsSpec) (c0 : Nat)
    (hv : A.validateRun = .ok ()) (hh : A.heapConsistent = true) :
    ∃ B c1, ArgobotsSpec.from_dict c0 A.to_dict = .ok (B, c1) ∧
      B.pools.map PoolSpec.to_dict = A.pools.map PoolSpec.to_dict ∧
      B.xstreams.map (fun x => (x.name, x.scheduler.type,
          x.scheduler.pools.map PoolSpec.name))
        = A.xstreams.map (fun x => (x.name, x.scheduler.type,
          x.scheduler.pools.map PoolSpec.name)) ∧
      (∀ p ∈ B.pools, ∀ q ∈ A.pools, q.pid < c0 → p.pyEq q = false) := by
  obtain ⟨hs1, hs2, hnp, hnx, hxf, hpf⟩ := argobots_validate_ok_facts hv
  have hpoolnames : (A.pools.map PoolSpec.to_dict).map PoolDict.name =
      A.pools.map PoolSpec.name := by
    rw [List.map_map]; rfl
  obtain ⟨ps, hps, hmapps, hpid⟩ :=
    buildPoolsFromDicts_ok (A.pools.map PoolSpec.to_dict) (c0 + 2) []
      (by
        intro d hd
        rcases List.mem_map.mp hd with ⟨p, hp, rfl⟩
        exact hpf p hp)
      (by rw [hpoolnames]; exact hnp)
      (by intro d _ x hx; exact absurd hx (List.not_mem_nil x))
  have hpsnames : ps.map PoolSpec.name = A.pools.map PoolSpec.name := by
    rw [← hpoolnames, ← hmapps, List.map_map]; rfl
  obtain ⟨xs, c2, hxs, hmapxs⟩ :=
    buildXstreamsFromDicts_ok (A.xstreams.map XstreamSpec.to_dict)
      (c0 + 2 + A.pools.length) ps []
      (by
        intro d hd
        rcases List.mem_map.mp hd with ⟨x, hx, rfl⟩
        obtain ⟨h1, h2, h3, _⟩ := hxf x hx
        refine ⟨h1, h2, ?_⟩
        simpa [XstreamSpec.to_dict, SchedulerSpec.to_dict] using
          fun hcon => h3 hcon)
      (by
        intro d hd n hn
        rcases List.mem_map.mp hd with ⟨x, hx, rfl⟩
        obtain ⟨_, _, _, h4⟩ := hxf x hx
        simp only [XstreamSpec.to_dict, SchedulerSpec.to_dict] at hn
        rcases List.mem_map.mp hn with ⟨p, hp, rfl⟩
        have hmem := h4 p hp
        rw [List.any_eq_true] at hmem
        rcases hmem with ⟨q, hq, hqp⟩
        have hpq : p.pyEq q = true := by
          simp only [PoolSpec.pyEq, beq_iff_eq] at hqp ⊢
          omega
        have hqeq : q = p := by
          have h5 := (List.all_eq_true.mp hh) x hx
          have h6 := (List.all_eq_true.mp h5) p hp
          have h7 := (List.all_eq_true.mp h6) q hq
          rw [hpq] at h7
          simp only [Bool.not_true, Bool.false_or, beq_iff_eq] at h7
          exact h7.symm
        rw [hqeq] at hq
        have : p.name ∈ ps.map PoolSpec.name := by
          rw [hpsnames]
          exact List.mem_map_of_mem PoolSpec.name hq
        rcases List.mem_map.mp this with ⟨r, hr, hrn⟩
        exact ⟨r, hr, hrn⟩)
      (by
        have : (A.xstreams.map XstreamSpec.to_dict).map XstreamDict.name =
            A.xstreams.map XstreamSpec.name := by rw [List.map_map]; rfl
        rw [this]; exact hnx)
      (by intro d _ x hx; exact absurd hx (List.not_mem_nil x))
  refine ⟨⟨A.abt_mem_max_num_stacks, A.abt_thread_stacksize, A.version,
    ps, xs, A.lazy_stack_alloc, A.profiling_dir⟩, c2, ?_, ?_, ?_, ?_⟩
  · unfold ArgobotsSpec.from_dict ArgobotsSpec.to_dict
    rw [if_neg (by simp; omega), if_neg (by simp; omega)]
    simp only [Bind.bind, Except.bind]
    rw [hps]
    simp only [List.nil_append, List.length_map]
    rw [hxs]
    simp
  · simpa using hmapps
  · simp only []
    rw [hmapxs, List.map_map]
    rfl
  · intro p hp q hq hqpid
    have hcp := hpid p hp
    simp only [PoolSpec.pyEq]
    have : p.pid ≠ q.pid := by omega
    simpa [Nat.beq_eq] using this

/-- Witness for C3 at a concrete two-pool, two-xstream Argobots. -/
theorem argobots_from_dict_roundtrip_witness :
    exArgoRT.validateRun = .ok () ∧ exArgoRT.heapConsistent = true ∧
    (∃ B c1, ArgobotsSpec.from_dict 100 exArgoRT.to_dict = .ok (B, c1) ∧
      B.pools.map PoolSpec.to_dict = exArgoRT.pools.map PoolSpec.to_dict ∧
      B.xstreams.map (fun x => (x.name, x.scheduler.type,
          x.scheduler.pools.map PoolSpec.name))
        = exArgoRT.xstreams.map (fun x => (x.name, x.scheduler.type,
          x.scheduler.pools.map PoolSpec.name)) ∧
      (∀ p ∈ B.pools, ∀ q ∈ exArgoRT.pools, q.pid < 100 → p.pyEq q = false)) :=
  ⟨by decide, by decide,
   argobots_from_dict_roundtrip exArgoRT 100 (by decide) (by decide)⟩

theorem getD_eq_getElem_of_lt {α : Type} (l : List α) (d : α) {i : Nat}
    (h : i < l.length) : l.getD i d = l.get ⟨i, h⟩ := by
  simp [List.getD_eq_getElem?_getD, List.getElem?_eq_getElem h]

theorem getD_mem_of_lt {α : Type} (l : List α) (d : α) {i : Nat}
    (h : i < l.length) : l.getD i d ∈ l := by
  rw [getD_eq_getElem_of_lt l d h]
  exact l.get_mem i h

theorem mem_exists_getD {α : Type} {l : List α} {x : α} (d : α) (h : x ∈ l) :
    ∃ i, i < l.length ∧ l.getD i d = x := by
  rcases List.mem_iff_getElem.mp h with ⟨n, hn, hx⟩
  exact ⟨n, hn, by rw [getD_eq_getElem_of_lt l d hn]; exact hx⟩

theorem getD_set_self {α : Type} (l : List α) (i : Nat) (a d : α)
    (h : i < l.length) : (l.set i a).getD i d = a := by
  simp [List.getD_eq_getElem?_getD, List.getElem?_set_self h]

theorem getD_set_ne {α : Type} (l : List α) (i j : Nat) (a d : α)
    (h : i ≠ j) : (l.set i a).getD j d = l.getD j d := by
  simp [List.getD_eq_getElem?_getD, List.getElem?_set_ne h]

theorem getD_map_range {α : Type} (f : Nat → α) (d : α) {n i : Nat}
    (h : i < n) : ((List.range n).map f).getD i d = f i := by
  simp [List.getD_eq_getElem?_getD, List.getElem?_map, List.getElem?_range h]

theorem getD_range {n i : Nat} (h : i < n) : (List.range n).getD i 0 = i := by
  simp [List.getD_eq_getElem?_getD, List.getElem?_range h]

theorem sorted_getLast_max {α : Type} {r : α → α → Prop} :
    ∀ (l : List α) (hne : l ≠ []), l.Pairwise r →
      ∀ x ∈ l, x = l.getLast hne ∨ r x (l.getLast hne) := by
  intro l
  induction l with
  | nil => intro hne; exact absurd rfl hne
  | cons a t ih =>
    intro hne hp x hx
    rcases t with _ | ⟨b, t2⟩
    · rcases List.mem_cons.mp hx with rfl | hx2
      · exact Or.inl rfl
      · exact absurd hx2 (List.not_mem_nil x)
    · have htne : b :: t2 ≠ [] := List.cons_ne_nil b t2
      have hlast : (a :: b :: t2).getLast hne = (b :: t2).getLast htne :=
        List.getLast_cons htne
      rcases List.mem_cons.mp hx with rfl | hx2
      · right
        rw [hlast]
        exact (List.pairwise_cons.mp hp).1 _ (List.getLast_mem htne)
      · rw [hlast]
        exact ih htne (List.pairwise_cons.mp hp).2 x hx2

theorem mkPoolSpec_ok {c : Nat} {n k a : String} {p : PoolSpec}
    (h : mkPoolSpec c n k a = .ok p) : p = ⟨c, n, k, a⟩ := by
  unfold mkPoolSpec at h
  by_cases h1 : isValidName n = true
  · rw [if_neg (by simpa using h1)] at h
    by_cases h2 : poolKinds.contains k = true
    · rw [if_neg (by simpa using h2)] at h
      by_cases h3 : poolAccessValues.contains a = true
      · rw [if_neg (by simpa using h3)] at h
        exact (Except.ok.inj h).symm
      · rw [if_pos (by simpa using h3)] at h
        exact absurd h (by simp)
    · rw [if_pos (by simpa using h2)] at h
      exact absurd h (by simp)
  · rw [if_pos (by simpa using h1)] at h
    exact absurd h (by simp)

theorem buildConfigPoolsAux_ok {kinds : Nat → String} :
    ∀ {L : List Nat} {ps : List PoolSpec},
    buildConfigPoolsAux kinds L = .ok ps →
    ps = L.map (fun i => (⟨i, "pool_" ++ toString i, kinds i, "mpmc"⟩ : PoolSpec)) := by
  intro L
  induction L with
  | nil =>
    intro ps h
    rw [buildConfigPoolsAux] at h
    exact (Except.ok.inj h).symm
  | cons i rest ih =>
    intro ps h
    rw [buildConfigPoolsAux] at h
    cases hp : PoolSpec.from_config i (kinds i) with
    | error e => rw [hp] at h; simp [Bind.bind, Except.bind] at h
    | ok p =>
      cases hr : buildConfigPoolsAux kinds rest with
      | error e => rw [hp, hr] at h; simp [Bind.bind, Except.bind] at h
      | ok ps2 =>
        rw [hp, hr] at h
        simp only [Bind.bind, Except.bind] at h
        have hp2 : p = ⟨i, "pool_" ++ toString i, kinds i, "mpmc"⟩ :=
          mkPoolSpec_ok (by rw [← hp]; rfl)
        rw [List.map_cons, ← ih hr, ← hp2]
        exact (Except.ok.inj h).symm

theorem poolWeightsSorted_mem_shape {len : Nat} {w : Nat → Int}
    {x : Int × Nat} (hxm : x ∈ poolWeightsSorted len w) :
    x.2 < len ∧ x = (w x.2, x.2) := by
  have := (List.perm_insertionSort tupleLE _).mem_iff.mp hxm
  rcases List.mem_map.mp this with ⟨j, hj, hxj⟩
  have hjlt := List.mem_range.mp hj
  exact ⟨by rw [← hxj]; exact hjlt, by rw [← hxj]⟩

theorem poolWeightsSorted_getLast_top {len : Nat} {w : Nat → Int}
    {last : Int × Nat}
    (hlast : (poolWeightsSorted len w).getLast? = some last) :
    last ∈ poolWeightsSorted len w ∧
    ∀ k, k < len → w k ≤ last.1 := by
  have hlne : poolWeightsSorted len w ≠ [] := by
    intro hc; rw [hc] at hlast; exact absurd hlast (by simp)
  have hlastval : last = (poolWeightsSorted len w).getLast hlne := by
    rw [List.getLast?_eq_getLast _ hlne] at hlast
    exact (Option.some.inj hlast).symm
  refine ⟨by rw [hlastval]; exact List.getLast_mem hlne, ?_⟩
  intro k hk
  have hkmem : (w k, k) ∈ poolWeightsSorted len w := by
    rw [poolWeightsSorted, (List.perm_insertionSort tupleLE _).mem_iff]
    exact List.mem_map_of_mem _ (List.mem_range.mpr hk)
  have hsorted : (poolWeightsSorted len w).Pairwise tupleLE :=
    List.sorted_insertionSort tupleLE _
  rcases sorted_getLast_max _ hlne hsorted (w k, k) hkmem with heq | hle
  · rw [hlastval, ← heq]
  · rw [hlastval]
    rcases hle with hlt | ⟨heq1, _⟩
    · exact le_of_lt hlt
    · exact le_of_eq heq1

theorem scheduler_from_config_ok {stype : String} {pools : List PoolSpec}
    {w : Nat → Int} {s : SchedulerSpec}
    (h : SchedulerSpec.from_config stype pools w = .ok s) :
    s.pools ≠ [] ∧
    (∀ p ∈ s.pools, ∃ i, i < pools.length ∧ p = pools.getD i dummyPool) ∧
    (∀ k, k < pools.length → 0 < w k → pools.getD k dummyPool ∈ s.pools) := by
  unfold SchedulerSpec.from_config at h
  split at h
  · exact absurd h (by simp)
  · rename_i last hlast
    obtain ⟨hlastmem, htop⟩ := poolWeightsSorted_getLast_top hlast
    by_cases ht : schedulerTypes.contains stype = true
    · rw [if_neg (by simpa using ht)] at h
      by_cases he : (schedulerChosenPools pools w last).isEmpty = true
      · rw [if_pos he] at h
        exact absurd h (by simp)
      · rw [if_neg he] at h
        have hs : s = ⟨stype, schedulerChosenPools pools w last⟩ :=
          (Except.ok.inj h).symm
        refine ⟨?_, ?_, ?_⟩
        · rw [hs]
          intro hc
          exact he (by simp only at hc; simp [hc])
        · intro p hp
          rw [hs] at hp
          simp only at hp
          unfold schedulerChosenPools at hp
          by_cases hneg : last.1 ≤ 0
          · rw [if_pos hneg] at hp
            rcases List.mem_cons.mp hp with rfl | hc
            · exact ⟨last.2, (poolWeightsSorted_mem_shape hlastmem).1, rfl⟩
            · exact absurd hc (List.not_mem_nil _)
          · rw [if_neg hneg] at hp
            rw [List.mem_reverse] at hp
            rcases List.mem_map.mp hp with ⟨pr, hpr, hppr⟩
            have hprm := List.mem_filter.mp hpr
            exact ⟨pr.2, (poolWeightsSorted_mem_shape hprm.1).1, hppr.symm⟩
        · intro k hk hwk
          have hpos : 0 < last.1 := lt_of_lt_of_le hwk (htop k hk)
          have hkmem : (w k, k) ∈ poolWeightsSorted pools.length w := by
            rw [poolWeightsSorted, (List.perm_insertionSort tupleLE _).mem_iff]
            exact List.mem_map_of_mem _ (List.mem_range.mpr hk)
          rw [hs]
          simp only []
          unfold schedulerChosenPools
          rw [if_neg (by omega)]
          rw [List.mem_reverse]
          refine List.mem_map.mpr ⟨(w k, k), ?_, rfl⟩
          exact List.mem_filter.mpr ⟨hkmem, by simpa using hwk⟩
    · rw [if_pos (by simpa using ht)] at h
      exact absurd h (by simp)

theorem xstream_from_config_ok {xid : Nat} {nm stype : String}
    {pools : List PoolSpec} {w : Nat → Int} {x : XstreamSpec}
    (h : XstreamSpec.from_config xid nm stype pools w = .ok x) :
    ∃ s, SchedulerSpec.from_config stype pools w = .ok s ∧
      x.scheduler = s := by
  unfold XstreamSpec.from_config at h
  cases hs : SchedulerSpec.from_config stype pools w with
  | error e => rw [hs] at h; simp [Bind.bind, Except.bind] at h
  | ok s =>
    rw [hs] at h
    simp only [Bind.bind, Except.bind] at h
    by_cases hn : isValidName nm = true
    · rw [if_neg (by simpa using hn)] at h
      exact ⟨s, rfl, by rw [← Except.ok.inj h]⟩
    · rw [if_pos (by simpa using hn)] at h
      exact absurd h (by simp)

theorem buildConfigXstreamsAux_ok {np : Nat} {pools : List PoolSpec}
    {stypes : Nat → String} {w : Nat → Nat → Int} :
    ∀ {L : List Nat} {xs : List XstreamSpec},
    buildConfigXstreamsAux np pools stypes w L = .ok xs →
    xs.length = L.length ∧
    (∀ m, m < L.length → ∃ s,
      SchedulerSpec.from_config (stypes (L.getD m 0)) pools
        (fun i => w (L.getD m 0) i) = .ok s ∧
      (xs.getD m dummyXstream).scheduler = s) := by
  intro L
  induction L with
  | nil =>
    intro xs h
    rw [buildConfigXstreamsAux] at h
    injection h with h2
    subst h2
    refine ⟨rfl, ?_⟩
    intro m hm
    exact absurd hm (by simp)
  | cons j rest ih =>
    intro xs h
    rw [buildConfigXstreamsAux] at h
    cases hx : XstreamSpec.from_config (np + j)
        (if j == 0 then "__primary__" else "xstream_" ++ toString j)
        (stypes j) pools (fun i => w j i) with
    | error e => rw [hx] at h; simp [Bind.bind, Except.bind] at h
    | ok x =>
      cases hr : buildConfigXstreamsAux np pools stypes w rest with
      | error e => rw [hx, hr] at h; simp [Bind.bind, Except.bind] at h
      | ok xs2 =>
        rw [hx, hr] at h
        simp only [Bind.bind, Except.bind] at h
        have hxs : xs = x :: xs2 := (Except.ok.inj h).symm
        obtain ⟨hlen, hsched⟩ := ih hr
        refine ⟨by rw [hxs]; simp [hlen], ?_⟩
        intro m hm
        cases m with
        | zero =>
          obtain ⟨s, hs, hxss⟩ := xstream_from_config_ok hx
          exact ⟨s, hs, by rw [hxs]; exact hxss⟩
        | succ m2 =>
          have hm2 : m2 < rest.length := by simpa using hm
          obtain ⟨s, hs, hxss⟩ := hsched m2 hm2
          refine ⟨s, ?_, ?_⟩
          · simpa using hs
          · rw [hxs]
            simpa using hxss

theorem except_bind_ok_inv {α β : Type} {e : Except PyErr α}
    {f : α → Except PyErr β} {b : β} (h : e >>= f = .ok b) :
    ∃ a, e = .ok a ∧ f a = .ok b := by
  cases e with
  | error err => simp [Bind.bind, Except.bind] at h
  | ok a => exact ⟨a, rfl, by simpa [Bind.bind, Except.bind] using h⟩

theorem assignUnusedPools_ok {used pools : List PoolSpec} {nx : Nat}
    {w : Nat → Nat → Int} :
    ∀ {L : List Nat} {acc res : List XstreamSpec},
    assignUnusedPools used nx pools w acc L = .ok res →
    acc.length = nx →
    res.length = nx ∧
    (∀ m, m < nx → ∃ extra, (res.getD m dummyXstream).scheduler.pools
        = (acc.getD m dummyXstream).scheduler.pools ++ extra) ∧
    (∀ i ∈ L,
      used.any (fun p => p.pyEq (pools.getD i dummyPool)) = true ∨
      ∃ m, m < nx ∧
        pools.getD i dummyPool ∈ (res.getD m dummyXstream).scheduler.pools) := by
  intro L
  induction L with
  | nil =>
    intro acc res h hlen
    rw [assignUnusedPools] at h
    injection h with h2
    subst h2
    exact ⟨hlen, fun m _ => ⟨[], by simp⟩, fun i hi => absurd hi (by simp)⟩
  | cons i rest ih =>
    intro acc res h hlen
    rw [assignUnusedPools] at h
    by_cases hu : used.any (fun p => p.pyEq (pools.getD i dummyPool)) = true
    · rw [if_pos hu] at h
      obtain ⟨hrl, hpre, hcov⟩ := ih h hlen
      refine ⟨hrl, hpre, ?_⟩
      intro i2 hi2
      rcases List.mem_cons.mp hi2 with rfl | hi3
      · exact Or.inl hu
      · exact hcov i2 hi3
    · rw [if_neg hu] at h
      split at h
      · exact absurd h (by simp)
      · rename_i last hlast
        have hlt : last.2 < nx :=
          (poolWeightsSorted_mem_shape
            (poolWeightsSorted_getLast_top hlast).1).1
        have hltacc : last.2 < acc.length := by rw [hlen]; exact hlt
        obtain ⟨hrl, hpre2, hcov2⟩ := ih h (by rw [List.length_set]; exact hlen)
        have haccset : ∀ m, m < nx →
            ((acc.set last.2
              (appendPoolToXstream (pools.getD i dummyPool)
                (acc.getD last.2 dummyXstream))).getD m dummyXstream).scheduler.pools
            = (acc.getD m dummyXstream).scheduler.pools ++
              (if last.2 = m then [pools.getD i dummyPool] else []) := by
          intro m _
          by_cases hm : last.2 = m
          · subst hm
            rw [getD_set_self _ _ _ _ hltacc]
            simp [appendPoolToXstream]
          · rw [getD_set_ne _ _ _ _ _ hm]
            simp [hm]
        refine ⟨hrl, ?_, ?_⟩
        · intro m hm
          obtain ⟨e2, he2⟩ := hpre2 m hm
          rw [haccset m hm] at he2
          exact ⟨(if last.2 = m then [pools.getD i dummyPool] else []) ++ e2,
            by rw [he2, List.append_assoc]⟩
        · intro i2 hi2
          rcases List.mem_cons.mp hi2 with rfl | hi3
          · right
            refine ⟨last.2, hlt, ?_⟩
            obtain ⟨e2, he2⟩ := hpre2 last.2 hlt
            rw [he2, haccset last.2 hlt]
            simp
          · exact hcov2 i2 hi3

/-- C1: any resolved configuration with `num_pools ≥ 1`, `num_xstreams ≥ 1`
and arbitrary association weights (all-zero and all-negative included)
yields an `ArgobotsSpec` in which every xstream's scheduler has at least one
pool and every pool is scheduled by at least one xstream. -/
theorem argobots_from_config_coverage (np nx : Nat)
    (kinds stypes : Nat → String) (w : Nat → Nat → Int) (A : ArgobotsSpec)
    (hnp : 1 ≤ np) (hnx : 1 ≤ nx)
    (hok : ArgobotsSpec.from_config np nx kinds stypes w = .ok A) :
    (∀ x ∈ A.xstreams, x.scheduler.pools ≠ []) ∧
    (∀ p ∈ A.pools, ∃ x ∈ A.xstreams, ∃ q ∈ x.scheduler.pools,
      q.pyEq p = true) := by
  unfold ArgobotsSpec.from_config at hok
  obtain ⟨pool_specs, hps, hok⟩ := except_bind_ok_inv hok
  obtain ⟨xs0, hxs, hok⟩ := except_bind_ok_inv hok
  obtain ⟨final, hasg, hok⟩ := except_bind_ok_inv hok
  unfold ArgobotsSpec.ctorChecked at hok
  by_cases hc1 : ((pool_specs.map PoolSpec.name).dedup).length = pool_specs.length
  case neg => rw [if_pos (by simpa using hc1)] at hok; exact absurd hok (by simp)
  by_cases hc2 : ((final.map XstreamSpec.name).dedup).length = final.length
  case neg =>
    rw [if_neg (by simpa using hc1), if_pos (by simpa using hc2)] at hok
    exact absurd hok (by simp)
  rw [if_neg (by simpa using hc1), if_neg (by simpa using hc2)] at hok
  have hA : A = ⟨8, 2097152, "unknown", pool_specs, final, false, "."⟩ :=
    (Except.ok.inj hok).symm
  have hApools : A.pools = pool_specs := by rw [hA]
  have hAxs : A.xstreams = final := by rw [hA]
  unfold buildConfigPools at hps
  have hmap := buildConfigPoolsAux_ok hps
  unfold buildConfigXstreams at hxs
  obtain ⟨hxlen, hsched⟩ := buildConfigXstreamsAux_ok hxs
  have hxlen2 : xs0.length = nx := by rw [hxlen]; simp
  obtain ⟨hrl, hpre, hcov⟩ := assignUnusedPools_ok hasg hxlen2
  have hx0pools : ∀ m, m < nx →
      (xs0.getD m dummyXstream).scheduler.pools ≠ [] := by
    intro m hm
    obtain ⟨s, hs, hxss⟩ := hsched m (by simpa using hm)
    rw [hxss]
    exact (scheduler_from_config_ok hs).1
  constructor
  · intro x hx
    rw [hAxs] at hx
    obtain ⟨m, hm, hgd⟩ := mem_exists_getD dummyXstream hx
    rw [hrl] at hm
    obtain ⟨extra, hext⟩ := hpre m hm
    rw [← hgd, hext]
    intro hcon
    exact hx0pools m hm (List.append_eq_nil.mp hcon).1
  · intro p hp
    rw [hApools, hmap] at hp
    rcases List.mem_map.mp hp with ⟨i, hi, hpi⟩
    have hilt : i < np := List.mem_range.mp hi
    have hgdi : pool_specs.getD i dummyPool = p := by
      rw [hmap, getD_map_range _ _ hilt, hpi]
    rcases hcov i hi with hused | ⟨m, hm, hmem⟩
    · rw [List.any_eq_true] at hused
      rcases hused with ⟨pu, hpu, hpyeq⟩
      rw [List.mem_flatten] at hpu
      rcases hpu with ⟨lst, hlst, hpul⟩
      rcases List.mem_map.mp hlst with ⟨x0, hx0, hlx0⟩
      obtain ⟨m0, hm0, hgd0⟩ := mem_exists_getD dummyXstream hx0
      rw [hxlen2] at hm0
      obtain ⟨extra, hext⟩ := hpre m0 hm0
      refine ⟨final.getD m0 dummyXstream, ?_, pu, ?_, ?_⟩
      · rw [hAxs]
        exact getD_mem_of_lt final dummyXstream (by rw [hrl]; exact hm0)
      · rw [hext, hgd0, hlx0]
        exact List.mem_append.mpr (Or.inl hpul)
      · rw [← hgdi]
        exact hpyeq
    · refine ⟨final.getD m dummyXstream, ?_, pool_specs.getD i dummyPool,
        hmem, ?_⟩
      · rw [hAxs]
        exact getD_mem_of_lt final dummyXstream (by rw [hrl]; exact hm)
      · rw [hgdi]
        simp [PoolSpec.pyEq]

/-- Witness for C1 at `num_pools = num_xstreams = 1` with every association
weight negative. -/
theorem argobots_from_config_coverage_witness :
    ArgobotsSpec.from_config 1 1 (fun _ => "fifo_wait") (fun _ => "basic_wait")
      (fun _ _ => -1) = .ok exResolved1 ∧
    ((∀ x ∈ exResolved1.xstreams, x.scheduler.pools ≠ []) ∧
     (∀ p ∈ exResolved1.pools, ∃ x ∈ exResolved1.xstreams,
       ∃ q ∈ x.scheduler.pools, q.pyEq p = true)) :=
  ⟨by decide,
   argobots_from_config_coverage 1 1 (fun _ => "fifo_wait")
     (fun _ => "basic_wait") (fun _ _ => -1) exResolved1
     (Nat.le_refl 1) (Nat.le_refl 1) (by decide)⟩

/-- Counterexample to C2: the resolution algorithm has no unconditional
"coverage seed" binding pool `k` to xstream `k`.  With
`num_pools = num_xstreams = 2` and weights preferring the opposite index
(`w j i > 0` iff `j ≠ i`), resolution succeeds but pool 0 does not appear in
xstream 0's scheduler (every pool scheduled there has a different identity
and a different name). -/
theorem coverage_seed_counterexample :
    ArgobotsSpec.from_config 2 2 (fun _ => "fifo_wait") (fun _ => "basic_wait")
      exSeedW = .ok exSeedCounterA ∧
    (0 : Nat) < min 2 2 ∧
    ((exSeedCounterA.xstreams.getD 0 dummyXstream).scheduler.pools.all
      (fun q => decide (q.pid ≠ 0) && decide (q.name ≠ "pool_0"))) = true := by
  decide

/-- C2 amended: pool `k` is bound to xstream `k` (for
`k < min(num_pools, num_xstreams)`) whenever the sampled association weight
of the pair `(pool k, xstream k)` is positive; the binding is *not*
independent of the weights — the claimed unconditional seed does not exist
(see the counterexample). -/
theorem from_config_positive_diagonal (np nx k : Nat)
    (kinds stypes : Nat → String) (w : Nat → Nat → Int) (A : ArgobotsSpec)
    (hok : ArgobotsSpec.from_config np nx kinds stypes w = .ok A)
    (hk1 : k < np) (hk2 : k < nx) (hw : 0 < w k k) :
    ∃ q ∈ (A.xstreams.getD k dummyXstream).scheduler.pools, q.pid = k := by
  unfold ArgobotsSpec.from_config at hok
  obtain ⟨pool_specs, hps, hok⟩ := except_bind_ok_inv hok
  obtain ⟨xs0, hxs, hok⟩ := except_bind_ok_inv hok
  obtain ⟨final, hasg, hok⟩ := except_bind_ok_inv hok
  unfold ArgobotsSpec.ctorChecked at hok
  by_cases hc1 : ((pool_specs.map PoolSpec.name).dedup).length = pool_specs.length
  case neg => rw [if_pos (by simpa using hc1)] at hok; exact absurd hok (by simp)
  by_cases hc2 : ((final.map XstreamSpec.name).dedup).length = final.length
  case neg =>
    rw [if_neg (by simpa using hc1), if_pos (by simpa using hc2)] at hok
    exact absurd hok (by simp)
  rw [if_neg (by simpa using hc1), if_neg (by simpa using hc2)] at hok
  have hA : A = ⟨8, 2097152, "unknown", pool_specs, final, false, "."⟩ :=
    (Except.ok.inj hok).symm
  have hAxs : A.xstreams = final := by rw [hA]
  unfold buildConfigPools at hps
  have hmap := buildConfigPoolsAux_ok hps
  have hplen : pool_specs.length = np := by rw [hmap]; simp
  unfold buildConfigXstreams at hxs
  obtain ⟨hxlen, hsched⟩ := buildConfigXstreamsAux_ok hxs
  have hxlen2 : xs0.length = nx := by rw [hxlen]; simp
  obtain ⟨hrl, hpre, _⟩ := assignUnusedPools_ok hasg hxlen2
  obtain ⟨s, hs, hxss⟩ := hsched k (by simpa using hk2)
  rw [getD_range hk2] at hs
  have hkpool : pool_specs.getD k dummyPool ∈ s.pools :=
    (scheduler_from_config_ok hs).2.2 k (by rw [hplen]; exact hk1) hw
  obtain ⟨extra, hext⟩ := hpre k hk2
  refine ⟨pool_specs.getD k dummyPool, ?_, ?_⟩
  · rw [hAxs, hext, hxss]
    exact List.mem_append.mpr (Or.inl hkpool)
  · rw [hmap, getD_map_range _ _ hk1]

/-- Witness for the amended C2 at `num_pools = num_xstreams = 1` with a
positive diagonal weight. -/
theorem from_config_positive_diagonal_witness :
    ArgobotsSpec.from_config 1 1 (fun _ => "fifo_wait") (fun _ => "basic_wait")
      (fun _ _ => 1) = .ok exResolved1 ∧
    (0 : Int) < 1 ∧
    (∃ q ∈ (exResolved1.xstreams.getD 0 dummyXstream).scheduler.pools,
      q.pid = 0) :=
  ⟨by decide, by decide,
   from_config_positive_diagonal 1 1 0 (fun _ => "fifo_wait")
     (fun _ => "basic_wait") (fun _ _ => 1) exResolved1 (by decide)
     (by decide) (by decide) (by decide)⟩

/-- Counterexample to C9: `ProviderSpec` is claimed identity-typed, but two
independently constructed providers (identities 1 and 2) with identical
field values compare *equal* under the attrs-generated structural
`__eq__`. -/
theorem identity_equality_counterexample :
    (1 : Nat) ≠ 2 ∧
    ProviderSpec.pyEq ⟨1, "p", "t", exPoolA, 0, [], [], []⟩
      ⟨2, "p", "t", exPoolA, 0, [], [], []⟩ = true := by decide

/-- C9 amended: only Pool and Xstream compare by object identity (distinct
objects with identical fields are unequal, and an object equals itself);
AbtIO, Mona, SSG, Provider and Client use the attrs-generated structural
equality — two independently constructed instances with identical field
values (including the same referenced pool object) compare equal regardless
of their identity. -/
theorem identity_vs_structural_equality :
    (∀ (i1 i2 : Nat) (n k a : String), i1 ≠ i2 →
      PoolSpec.pyEq ⟨i1, n, k, a⟩ ⟨i2, n, k, a⟩ = false) ∧
    (∀ p : PoolSpec, p.pyEq p = true) ∧
    (∀ (i1 i2 : Nat) (n : String) (s : SchedulerSpec) (c : Int)
      (af : List Int), i1 ≠ i2 →
      XstreamSpec.pyEq ⟨i1, n, s, c, af⟩ ⟨i2, n, s, c, af⟩ = false) ∧
    (∀ x : XstreamSpec, x.pyEq x = true) ∧
    (∀ (i1 i2 : Nat) (n : String) (p : PoolSpec)
      (cfg : List (String × String)),
      AbtIOSpec.pyEq ⟨i1, n, p, cfg⟩ ⟨i2, n, p, cfg⟩ = true) ∧
    (∀ (i1 i2 : Nat) (n : String) (p : PoolSpec)
      (cfg : List (String × String)),
      MonaSpec.pyEq ⟨i1, n, p, cfg⟩ ⟨i2, n, p, cfg⟩ = true) ∧
    (∀ (i1 i2 : Nat) (n : String) (p : PoolSpec) (cr : Int) (b gf : String)
      (sw : Option SwimSpec),
      SSGSpec.pyEq ⟨i1, n, p, cr, b, gf, sw⟩ ⟨i2, n, p, cr, b, gf, sw⟩ = true) ∧
    (∀ (i1 i2 : Nat) (n t : String) (p : PoolSpec) (pv : Int)
      (cfg : List (String × String)) (dep : List (String × DepValue))
      (tg : List String),
      ProviderSpec.pyEq ⟨i1, n, t, p, pv, cfg, dep, tg⟩
        ⟨i2, n, t, p, pv, cfg, dep, tg⟩ = true) ∧
    (∀ (i1 i2 : Nat) (n t : String) (cfg : List (String × String))
      (dep : List (String × DepValue)) (tg : List String),
      ClientSpec.pyEq ⟨i1, n, t, cfg, dep, tg⟩
        ⟨i2, n, t, cfg, dep, tg⟩ = true) := by
  refine ⟨?_, ?_, ?_, ?_, ?_, ?_, ?_, ?_, ?_⟩
  · intro i1 i2 n k a h
    simp [PoolSpec.pyEq, h]
  · intro p
    simp [PoolSpec.pyEq]
  · intro i1 i2 n s c af h
    simp [XstreamSpec.pyEq, h]
  · intro x
    simp [XstreamSpec.pyEq]
  · intro i1 i2 n p cfg
    simp [AbtIOSpec.pyEq, PoolSpec.pyEq]
  · intro i1 i2 n p cfg
    simp [MonaSpec.pyEq, PoolSpec.pyEq]
  · intro i1 i2 n p cr b gf sw
    simp [SSGSpec.pyEq, PoolSpec.pyEq]
  · intro i1 i2 n t p pv cfg dep tg
    simp [ProviderSpec.pyEq, PoolSpec.pyEq]
  · intro i1 i2 n t cfg dep tg
    simp [ClientSpec.pyEq]

/-- Witness for the amended C9 at concrete objects of three of the
classes. -/
theorem identity_vs_structural_equality_witness :
    PoolSpec.pyEq ⟨1, "a", "fifo", "mpmc"⟩ ⟨2, "a", "fifo", "mpmc"⟩ = false ∧
    XstreamSpec.pyEq ⟨1, "x", ⟨"basic", [exPoolA]⟩, -1, []⟩
      ⟨2, "x", ⟨"basic", [exPoolA]⟩, -1, []⟩ = false ∧
    ClientSpec.pyEq ⟨1, "c", "t", [], [], []⟩ ⟨2, "c", "t", [], [], []⟩ = true :=
  ⟨identity_vs_structural_equality.1 1 2 "a" "fifo" "mpmc" (by decide),
   identity_vs_structural_equality.2.2.1 1 2 "x" ⟨"basic", [exPoolA]⟩ (-1) []
     (by decide),
   identity_vs_structural_equality.2.2.2.2.2.2.2.2 1 2 "c" "t" [] [] []⟩

/-- C6: when its Mercury and Argobots parts validate, `MargoSpec.validate`
succeeds exactly when both designated pools are members of the Argobots pool
list, and raises `ValueError` when either is not; membership is decided by
`PoolSpec.__eq__`, i.e. object identity, so a field-identical but distinct
pool object does not count. -/
theorem margo_validate_pool_membership (m : MargoSpec)
    (hm : m.mercury.validateRun = .ok ())
    (ha : m.argobots.validateRun = .ok ()) :
    (m.validateRun = .ok () ↔
      (m.argobots.pools.any (fun q => q.pyEq m.progress_pool) = true ∧
       m.argobots.pools.any (fun q => q.pyEq m.rpc_pool) = true)) ∧
    ((m.argobots.pools.any (fun q => q.pyEq m.progress_pool) = false ∨
      m.argobots.pools.any (fun q => q.pyEq m.rpc_pool) = false) →
      m.validateRun = .error .valueError) := by
  unfold MargoSpec.validateRun
  rw [hm, ha]
  simp only [Bind.bind, Except.bind]
  cases h1 : m.argobots.pools.any (fun q => q.pyEq m.progress_pool) <;>
    cases h2 : m.argobots.pools.any (fun q => q.pyEq m.rpc_pool) <;>
    simp

/-- Witness for C6: `exMargo` (both pools members) validates; `exMargoBad`,
whose rpc pool is a field-identical but distinct object, fails with
`ValueError`. -/
theorem margo_validate_pool_membership_witness :
    exMargo.validateRun = .ok () ∧
    exMargoBad.validateRun = .error .valueError ∧
    exMargoBad.rpc_pool.name = exPoolA.name ∧
    exMargoBad.rpc_pool.pid ≠ exPoolA.pid :=
  ⟨(margo_validate_pool_membership exMargo (by decide) (by decide)).1.mpr
     ⟨by decide, by decide⟩,
   (margo_validate_pool_membership exMargoBad (by decide) (by decide)).2
     (Or.inr (by decide)),
   by decide, by decide⟩

/-- C8 is a code bug: the provider/client loop of `ProcSpec.validate` reads
`self._libraries`, an attribute that does not exist (the field is
`libraries`), so validation of `exProc` — whose only provider's type *is*
registered — raises `AttributeError` instead of succeeding, and the
registry membership test is never performed for any process with a provider
or client. -/
theorem proc_validate_attributeerror :
    exProc.providers.all
      (fun pr => exProc.libraries.any (fun kv => kv.1 == pr.type)) = true ∧
    exProc.providers ≠ [] ∧
    exProc.validateRun = .error .attributeError := by decide

/-- C7 is a code bug: the rank guard of `ServiceSpec.validate` computes
`rank = int(dep.split('@')[1].isnumeric())`, which is `1` whenever the guard
fires, so `foo@5` passes in a 2-process service (the claim requires a
failure: the written rank is 5 and 5 ≥ 2) while the in-range `foo@0` *fails*
in a 1-process service; a locator inside a list-valued dependency is never
checked at all because `'@' in value` tests list membership of the string
`"@"`; and a full `validate()` on a 2-process service whose dependency ranks
are all in range still fails — with `AttributeError` from the `_libraries`
slip of `ProcSpec.validate` — rather than succeeding. -/
theorem service_validate_rank_divergence :
    checkProviderDependency 2 (.str "foo@5") "foo@5" = .ok () ∧
    ((pySplitAt "foo@5").getD 1 "") = "5" ∧
    checkProviderDependency 1 (.str "foo@0") "foo@0" = .error .valueError ∧
    checkProviderDependency 5 (.list ["foo@9"]) "foo@9" = .ok () ∧
    exService.processes.length = 2 ∧
    exService.validateRun = .error .attributeError := by decide

/-- C4 is a code bug: `ServiceSpec.from_dict` ends with
`return ProcSpec(processes=processes)`; `ProcSpec.__init__` accepts no
`processes` keyword (and requires `margo`), so deserializing the serialized
form of a `ServiceSpec` — here both the empty service and a one-process
service — raises `TypeError` instead of returning a `ServiceSpec`. -/
theorem service_from_dict_typeerror :
    ServiceSpec.from_dict_run 0 (ServiceSpec.to_dict ⟨[]⟩) =
      .error .typeError ∧
    ServiceSpec.from_dict_run 0 (ServiceSpec.to_dict ⟨[exProc]⟩) =
      .error .typeError := by decide

end Bedrock
